import Mathlib

/-!
The WebSocket relay `wssproxy` (`main.go`)

A shallow embedding of the relay's single source file:

* `WebSocketServer`, `getWSSTag`, `dialURL` : the configuration struct and the
  outbound URL built at line 37;
* `main` : process startup (lines 74-119) as the list of effects it performs;
* `Conn`, `ReadMessage`, `WriteMessage`, `proxyStep`, `proxyMessages` : the
  forwarding loop (lines 54-65) over explicit connection state;
* `Session`, `step`, `exec` : `handleClient` (lines 23-52) as a two-thread
  machine (handler thread and the goroutine started at line 48) driven by a
  schedule.
-/

namespace WssProxy

/-! ## Configuration (lines 13-21, 67-72, 37) -/

/-- The handler struct of lines 14-21. -/
structure WebSocketServer where
  targetURL : String
  targetPort : String
  serverPort : String
  useTLS : Bool
  privateKeyPath : String
  certificatePath : String
  deriving DecidableEq, Repr

/-- Lines 67-72: the scheme suffix. -/
def getWSSTag (ws : WebSocketServer) : String :=
  if ws.useTLS then "s" else ""

/-- Line 37: `fmt.Sprintf("w%s://%s:%s/", ws.getWSSTag(), ws.targetURL, ws.targetPort)`. -/
def dialURL (ws : WebSocketServer) : String :=
  "w" ++ getWSSTag ws ++ "://" ++ ws.targetURL ++ ":" ++ ws.targetPort ++ "/"

/-! ## Process startup (lines 74-119) -/

/-- A loaded key pair (`tls.Certificate`); its content is not inspected. -/
structure Certificate where
  raw : String
  deriving DecidableEq, Repr

/-- The calls `main` makes to the outside world, in order. -/
inductive Effect where
  /-- The call `fmt.Println(line)`: one line on standard output. -/
  | stdoutPrintln (line : String)
  /-- The call `os.Exit(code)`. -/
  | osExit (code : Nat)
  /-- The call `http.HandleFunc(pattern, ws.handleClient)`. -/
  | handleFunc (pattern : String) (ws : WebSocketServer)
  /-- The call `tls.LoadX509KeyPair(certFile, keyFile)`. -/
  | loadX509KeyPair (certFile keyFile : String)
  /-- The call `log.Println(args...)`. -/
  | logPrintln (args : List String)
  /-- The call `log.Fatal(args...)`: logs and exits with code 1. -/
  | logFatal (args : List String)
  /-- The call `server.ListenAndServeTLS("", "")` with `Addr` and the certificate. -/
  | listenAndServeTLS (addr : String) (cert : Certificate)
  /-- The call `http.ListenAndServe(addr, nil)`. -/
  | listenAndServe (addr : String)
  deriving DecidableEq, Repr

/-- The usage line of line 84. -/
def usage : String :=
  "Usage: TARGET_URL=your-target-server-url TARGET_PORT=your-target-server-port SERVER_PORT=9002 [PRIVATE_KEY_PATH=private-key.pem CERTIFICATE_PATH=certificate.pem] go run main.go"

/-- Line 81: `useTLS := privateKeyPath != "" && certificatePath != ""`. -/
def mainUseTLS (getenv : String → String) : Bool :=
  getenv "PRIVATE_KEY_PATH" != "" && getenv "CERTIFICATE_PATH" != ""

/-- Line 83: the condition guarding the usage exit. -/
def usageError (getenv : String → String) : Bool :=
  getenv "TARGET_URL" == "" || getenv "TARGET_PORT" == "" || getenv "SERVER_PORT" == "" ||
    (mainUseTLS getenv &&
      (getenv "PRIVATE_KEY_PATH" == "" || getenv "CERTIFICATE_PATH" == ""))

/-- Lines 88-95: the server value built from the environment. -/
def mainServer (getenv : String → String) : WebSocketServer :=
  { targetURL := getenv "TARGET_URL"
    targetPort := getenv "TARGET_PORT"
    serverPort := getenv "SERVER_PORT"
    useTLS := mainUseTLS getenv
    privateKeyPath := getenv "PRIVATE_KEY_PATH"
    certificatePath := getenv "CERTIFICATE_PATH" }

/-- Lines 74-119. `getenv` is `os.Getenv` (the empty string for an unset
variable), `loadKeyPair` is the outcome of `tls.LoadX509KeyPair` on the file
system, and `listenErr` is the error a listener call returns (`none` when it
serves forever and never returns). -/
def main (getenv : String → String)
    (loadKeyPair : String → String → Except String Certificate)
    (listenErr : Option String) : List Effect :=
  if usageError getenv then
    [.stdoutPrintln usage, .osExit 1]
  else
    let ws := mainServer getenv
    .handleFunc "/" ws ::
      (if ws.useTLS then
        .loadX509KeyPair ws.certificatePath ws.privateKeyPath ::
          (match loadKeyPair ws.certificatePath ws.privateKeyPath with
           | .error e => [.logFatal ["Failed to load certificates:", e]]
           | .ok cert =>
             .logPrintln ["WebSocket proxy server (WSS) listening on port", ws.serverPort] ::
             .listenAndServeTLS (":" ++ ws.serverPort) cert ::
             (match listenErr with
              | none => []
              | some e => [.logFatal [e]]))
      else
        .logPrintln ["WebSocket proxy server (WS) listening on port", ws.serverPort] ::
        .listenAndServe (":" ++ ws.serverPort) ::
        (match listenErr with
         | none => []
         | some e => [.logFatal [e]]))

/-- An effect that binds a listening socket. -/
def Effect.bindsListener : Effect → Bool
  | .listenAndServeTLS _ _ => true
  | .listenAndServe _ => true
  | _ => false

/-- An environment given by its five variables; every other name is unset. -/
def mkEnv (targetURL targetPort serverPort privateKeyPath certificatePath : String) :
    String → String := fun name =>
  if name = "TARGET_URL" then targetURL
  else if name = "TARGET_PORT" then targetPort
  else if name = "SERVER_PORT" then serverPort
  else if name = "PRIVATE_KEY_PATH" then privateKeyPath
  else if name = "CERTIFICATE_PATH" then certificatePath
  else ""

/-! ## Connections and the forwarding loop (lines 54-65) -/

/-- One WebSocket message as `ReadMessage` returns it and `WriteMessage` takes
it: the integer type tag (1 text, 2 binary) and the payload bytes. -/
structure Frame where
  msgType : Int
  msg : List (Fin 256)
  deriving DecidableEq, Repr

/-- The tag `websocket.TextMessage`. -/
def TextMessage : Int := 1

/-- The tag `websocket.BinaryMessage`. -/
def BinaryMessage : Int := 2

/-- A `*websocket.Conn` together with what its peer and the network will do.
`inbox` lists the results of the successive `ReadMessage` calls the peer makes
available (`some f` a frame, `none` a read error); when it is empty a read
blocks. `writeOk k` tells whether the `k`-th `WriteMessage` call gets through.
`nwrites` counts the `WriteMessage` calls made, `outbox` lists the frames that
were written successfully, and `closed` records a local `Close()`. -/
structure Conn where
  inbox : List (Option Frame)
  writeOk : Nat → Bool
  nwrites : Nat
  outbox : List Frame
  closed : Bool

/-- A connection as `Upgrade` or `Dial` hands it over. -/
def Conn.fresh (inbox : List (Option Frame)) (writeOk : Nat → Bool) : Conn :=
  { inbox := inbox, writeOk := writeOk, nwrites := 0, outbox := [], closed := false }

/-- The call `c.ReadMessage()`: `none` when the call blocks, otherwise the
result (`none` for `err != nil`) and the connection afterwards. A read on a
locally closed connection fails at once. -/
def ReadMessage (c : Conn) : Option (Option Frame × Conn) :=
  if c.closed then some (none, c)
  else
    match c.inbox with
    | [] => none
    | r :: rest => some (r, { c with inbox := rest })

/-- The call `c.WriteMessage(f.msgType, f.msg)`: whether `err == nil`, and the
connection afterwards. A write on a locally closed connection fails. -/
def WriteMessage (c : Conn) (f : Frame) : Bool × Conn :=
  let ok := !c.closed && c.writeOk c.nwrites
  (ok, { c with nwrites := c.nwrites + 1,
                outbox := if ok then c.outbox ++ [f] else c.outbox })

/-- The call `c.Close()`. -/
def Conn.close (c : Conn) : Conn := { c with closed := true }

/-- Where a `proxyMessages` call stands: about to call `ReadMessage`
(line 56), about to call `WriteMessage` with the frame just read (line 60),
or past one of the two `break`s (returned). -/
inductive LoopPC where
  | read
  | write (f : Frame)
  | done
  deriving DecidableEq, Repr

/-- The calls a `proxyMessages` loop makes, with their results. -/
inductive LoopEvent where
  /-- The call `srcConn.ReadMessage()` returned this (`none`: an error). -/
  | read (r : Option Frame)
  /-- The call `dstConn.WriteMessage(f.msgType, f.msg)` returned `err == nil` iff `ok`. -/
  | write (f : Frame) (ok : Bool)
  deriving DecidableEq, Repr

/-- One call of the loop of lines 55-64. `none`: the loop cannot move (it is
blocked in `ReadMessage`, or it has returned). -/
def proxyStep (pc : LoopPC) (src dst : Conn) : Option (LoopPC × Conn × Conn × LoopEvent) :=
  match pc with
  | .read =>
    match ReadMessage src with
    | none => none
    | some (none, src1) => some (.done, src1, dst, .read none)
    | some (some f, src1) => some (.write f, src1, dst, .read (some f))
  | .write f =>
    match WriteMessage dst f with
    | (true, dst1) => some (.read, src, dst1, .write f true)
    | (false, dst1) => some (.done, src, dst1, .write f false)
  | .done => none

/-- What a run of the loop leaves behind: its position, the two connections,
and the calls it made in order. -/
structure LoopResult where
  pc : LoopPC
  src : Conn
  dst : Conn
  events : List LoopEvent

/-- Runs the loop for at most `fuel` calls, or until it cannot move. -/
def proxyRun : Nat → LoopPC → Conn → Conn → LoopResult
  | 0, pc, src, dst => ⟨pc, src, dst, []⟩
  | fuel + 1, pc, src, dst =>
    match proxyStep pc src dst with
    | none => ⟨pc, src, dst, []⟩
    | some (pc1, src1, dst1, e) =>
      let r := proxyRun fuel pc1 src1 dst1
      ⟨r.pc, r.src, r.dst, e :: r.events⟩

/-- Lines 54-65, run alone on `srcConn` and `dstConn`: the final position of
the loop (`done`: the function returned; `read`: it waits for a frame that
never comes), both connections, and the calls made. Each frame of the inbox
costs two calls and a read error one, so the fuel always suffices: the result
cannot move any further (`proxyMessages_quiescent`). -/
def proxyMessages (src dst : Conn) : LoopResult :=
  proxyRun (2 * src.inbox.length + 2) .read src dst

/-- The loop on an open source connection, by recursion on what the source
delivers. It is a proof device: `proxyRun_read` shows that `proxyRun` computes
it whenever the fuel covers the inbox. -/
def proxyUnrolled : List (Option Frame) → Conn → Conn → LoopResult
  | [], src, dst => ⟨.read, src, dst, []⟩
  | none :: rest, src, dst => ⟨.done, { src with inbox := rest }, dst, [.read none]⟩
  | some f :: rest, src, dst =>
    match WriteMessage dst f with
    | (true, dst1) =>
      let r := proxyUnrolled rest { src with inbox := rest } dst1
      ⟨r.pc, r.src, r.dst, .read (some f) :: .write f true :: r.events⟩
    | (false, dst1) =>
      ⟨.done, { src with inbox := rest }, dst1, [.read (some f), .write f false]⟩

/-- The results of the `WriteMessage` calls, in call order. -/
def writeOutcomes : List LoopEvent → List Bool
  | [] => []
  | .write _ ok :: es => ok :: writeOutcomes es
  | .read _ :: es => writeOutcomes es

/-- The frames handed to `WriteMessage`, in call order. -/
def writeAttempts : List LoopEvent → List Frame
  | [] => []
  | .write f _ :: es => f :: writeAttempts es
  | .read _ :: es => writeAttempts es

/-- The frames `WriteMessage` wrote successfully, in call order. -/
def framesWritten : List LoopEvent → List Frame
  | [] => []
  | .write f true :: es => f :: framesWritten es
  | _ :: es => framesWritten es

/-- The frames `ReadMessage` returned, in call order. -/
def framesRead : List LoopEvent → List Frame
  | [] => []
  | .read (some f) :: es => f :: framesRead es
  | _ :: es => framesRead es

/-- A call that returned an error. -/
def LoopEvent.failed : LoopEvent → Bool
  | .read none => true
  | .write _ false => true
  | _ => false

/-- The frames at the head of an inbox, up to its first read error. -/
def leadingFrames : List (Option Frame) → List Frame
  | some f :: rs => f :: leadingFrames rs
  | _ => []

/-! ## The handler (lines 23-52) as a two-thread machine -/

/-- The two connections of a session. -/
inductive ConnId where
  | client
  | target
  deriving DecidableEq, Repr

/-- The two threads of a session: the handler, and the goroutine of line 48. -/
inductive Thread where
  | handler
  | spawned
  deriving DecidableEq, Repr

/-- Where `handleClient` stands: about to call `Upgrade` (line 26), about to
call `Dial` (line 38), about to start the goroutine (line 48), inside its own
`proxyMessages(targetConn, clientConn)` call (line 49), running its deferred
calls on the way out, or returned. -/
inductive HandlerPC where
  | upgrade
  | dial
  | spawn
  | forward (pc : LoopPC)
  | unwind
  | returned
  deriving DecidableEq, Repr

/-- The calls a session makes, with their results. -/
inductive Event where
  /-- The call `upgrader.Upgrade(w, r, nil)` returned this error (`none`: success). -/
  | upgrade (err : Option String)
  /-- The call `log.Println(args...)`. -/
  | logPrintln (args : List String)
  /-- The call `http.Error(w, body, code)`. -/
  | httpError (body : String) (code : Nat)
  /-- The call `websocket.DefaultDialer.Dial(url, nil)` returned this error. -/
  | dial (url : String) (err : Option String)
  /-- The call `go ws.proxyMessages(clientConn, targetConn)`. -/
  | goProxy
  /-- A call made by the `proxyMessages` loop running on thread `t`. -/
  | proxy (t : Thread) (e : LoopEvent)
  /-- A deferred `Close()` on this connection. -/
  | close (c : ConnId)
  deriving DecidableEq, Repr

/-- The `http.ResponseWriter` of the request, as the client sees it: the
status line sent (fixed by the first `WriteHeader`; a later one is superfluous
and ignored), the body written so far, and whether the connection has been
hijacked, after which nothing can be sent through the writer. -/
structure ResponseWriter where
  status : Option Nat
  body : String
  hijacked : Bool
  deriving DecidableEq, Repr

/-- The writer as the handler receives it: nothing sent yet. -/
def ResponseWriter.fresh : ResponseWriter := ⟨none, "", false⟩

/-- The call `http.Error(w, msg, code)`: `w.WriteHeader(code)`, which sets the
status only when none has been sent, then `fmt.Fprintln(w, msg)`. -/
def httpError (w : ResponseWriter) (msg : String) (code : Nat) : ResponseWriter :=
  if w.hijacked then w
  else
    { w with status := (match w.status with
                        | none => some code
                        | some sent => some sent),
             body := w.body ++ msg ++ "\n" }

/-- How `upgrader.Upgrade` fails. `err` is the error it returns. The library
documents that a failing `Upgrade` replies to the client itself: before the
connection is hijacked it calls `http.Error(w, text, code)` with its own
status (`reply = some (code, text)`: 400 for a bad handshake, 405 for a method
other than GET); after hijacking it closes the connection and sends nothing
(`reply = none`). -/
structure UpgradeFailure where
  err : String
  reply : Option (Nat × String)
  deriving DecidableEq, Repr

/-- What a failing `Upgrade` has done to the writer by the time it returns. -/
def UpgradeFailure.applyTo (f : UpgradeFailure) (w : ResponseWriter) : ResponseWriter :=
  match f.reply with
  | some (code, text) => httpError w text code
  | none => { w with hijacked := true }

/-- One run of `handleClient`. `upgradeErr` and `dialErr` are what `Upgrade`
and `Dial` will return; `client` and `target` are the two connections;
`spawned` is the position of the goroutine of line 48 once started; `defers`
is the stack of deferred `Close()` calls; `trace` lists the calls made; `w`
is the response writer of the request. -/
structure Session where
  ws : WebSocketServer
  upgradeErr : Option UpgradeFailure
  dialErr : Option String
  client : Conn
  target : Conn
  handler : HandlerPC
  spawned : Option LoopPC
  defers : List ConnId
  trace : List Event
  w : ResponseWriter

/-- The session when `handleClient` is entered. -/
def Session.init (ws : WebSocketServer) (upgradeErr : Option UpgradeFailure)
    (dialErr : Option String) (client target : Conn) : Session :=
  { ws := ws, upgradeErr := upgradeErr, dialErr := dialErr, client := client, target := target,
    handler := .upgrade, spawned := none, defers := [], trace := [],
    w := ResponseWriter.fresh }

/-- Closes the named connection of a session. -/
def Session.closeConn (s : Session) : ConnId → Session
  | .client => { s with client := s.client.close }
  | .target => { s with target := s.target.close }

/-- One step of the handler thread. -/
def stepHandler (s : Session) : Option Session :=
  match s.handler with
  | .upgrade =>
    match s.upgradeErr with
    | some f =>
      -- lines 27-30: `Upgrade` has already replied (or hijacked) when line 29 runs
      some { s with handler := .unwind,
                    trace := s.trace ++ [.upgrade (some f.err),
                      .logPrintln ["Failed to upgrade client connection:", f.err],
                      .httpError "Internal Server Error" 500],
                    w := httpError (f.applyTo s.w) "Internal Server Error" 500 }
    | none =>
      -- lines 32-34: a successful `Upgrade` has hijacked the connection
      some { s with handler := .dial, defers := .client :: s.defers,
                    trace := s.trace ++ [.upgrade none, .logPrintln ["Client connected"]],
                    w := { s.w with hijacked := true } }
  | .dial =>
    match s.dialErr with
    | some e =>
      -- lines 39-42
      some { s with handler := .unwind,
                    trace := s.trace ++ [.dial (dialURL s.ws) (some e),
                      .logPrintln ["Failed to connect to target server:", e, dialURL s.ws]] }
    | none =>
      -- lines 43-45
      some { s with handler := .spawn, defers := .target :: s.defers,
                    trace := s.trace ++ [.dial (dialURL s.ws) none,
                      .logPrintln ["Connected to target server"]] }
  | .spawn =>
    -- line 48
    some { s with handler := .forward .read, spawned := some .read,
                  trace := s.trace ++ [.goProxy] }
  | .forward .done =>
    -- line 51
    some { s with handler := .unwind, trace := s.trace ++ [.logPrintln ["Client disconnected"]] }
  | .forward pc =>
    -- line 49: ws.proxyMessages(targetConn, clientConn)
    match proxyStep pc s.target s.client with
    | none => none
    | some (pc1, target1, client1, e) =>
      some { s with handler := .forward pc1, target := target1, client := client1,
                    trace := s.trace ++ [.proxy .handler e] }
  | .unwind =>
    match s.defers with
    | c :: rest => some { s.closeConn c with defers := rest, trace := s.trace ++ [.close c] }
    | [] => some { s with handler := .returned }
  | .returned => none

/-- One step of the goroutine of line 48: `ws.proxyMessages(clientConn, targetConn)`. -/
def stepSpawned (s : Session) : Option Session :=
  match s.spawned with
  | none => none
  | some pc =>
    match proxyStep pc s.client s.target with
    | none => none
    | some (pc1, client1, target1, e) =>
      some { s with spawned := some pc1, client := client1, target := target1,
                    trace := s.trace ++ [.proxy .spawned e] }

/-- One step of the chosen thread; `none` when that thread cannot move. -/
def step (s : Session) : Thread → Option Session
  | .handler => stepHandler s
  | .spawned => stepSpawned s

/-- Runs a schedule; `none` when it names a thread that cannot move. -/
def exec (s : Session) : List Thread → Option Session
  | [] => some s
  | t :: ts =>
    match step s t with
    | none => none
    | some s1 => exec s1 ts

/-- The events of a trace made by the forwarding loops. -/
def Event.isProxy : Event → Bool
  | .proxy _ _ => true
  | _ => false

/-- The dial attempts of a trace. -/
def Event.isDial : Event → Bool
  | .dial _ _ => true
  | _ => false

/-! ## Concrete inputs used by the examples -/

/-- The text frame `ping` of scenario A. -/
def pingFrame : Frame := ⟨TextMessage, [112, 105, 110, 103]⟩

/-- The text frame `pong`. -/
def pongFrame : Frame := ⟨TextMessage, [112, 111, 110, 103]⟩

/-- A binary frame of 1 MB (scenario D). -/
def megabyteFrame : Frame := ⟨BinaryMessage, List.replicate 1048576 0⟩

/-- A network on which every write gets through. -/
def alwaysOk : Nat → Bool := fun _ => true

/-- A network on which the first `n` writes get through and the next fails. -/
def okBefore (n : Nat) : Nat → Bool := fun k => decide (k < n)

/-- The configuration of scenario A: no TLS. -/
def plainServer : WebSocketServer := ⟨"echo.example", "80", "9002", false, "", ""⟩

/-- The configuration of scenario C: TLS on. -/
def tlsServer : WebSocketServer := ⟨"echo.example", "443", "9002", true, "key.pem", "cert.pem"⟩

/-- The calls of a run in which `Upgrade` fails with `e` (lines 26-30). -/
def upgradeFailureTrace (e : String) : List Event :=
  [.upgrade (some e), .logPrintln ["Failed to upgrade client connection:", e],
   .httpError "Internal Server Error" 500]

/-- The calls of a run in which `Upgrade` succeeds and `Dial` fails with `e`
(lines 26-42, then the deferred close of line 32). -/
def dialFailureTrace (ws : WebSocketServer) (e : String) : List Event :=
  [.upgrade none, .logPrintln ["Client connected"], .dial (dialURL ws) (some e),
   .logPrintln ["Failed to connect to target server:", e, dialURL ws], .close .client]

/-- The position of the handler thread's own forwarding loop: not yet started
(`none`) before line 49, and `done` once the handler is on its way out. -/
def handlerLoop : HandlerPC → Option LoopPC
  | .forward pc => some pc
  | .unwind => some .done
  | .returned => some .done
  | _ => none

/-- What one direction of a session has done with the frames `expected` (what
the destination had received, followed by the frames the source delivers up to
its first read error): while the loop is live, the frames written so far, the
frame it holds between read and write, and the frames still to come make up
`expected`; once it has returned, the frames written are an initial segment
of `expected`. -/
def FlowInv (expected : List Frame) (src dst : Conn) : Option LoopPC → Prop
  | none => dst.outbox ++ leadingFrames src.inbox = expected
  | some .read => dst.outbox ++ leadingFrames src.inbox = expected
  | some (.write f) => dst.outbox ++ f :: leadingFrames src.inbox = expected
  | some .done => dst.outbox <+: expected

/-- The accounts of both directions of a session: the goroutine forwards
client to target, the handler thread target to client. -/
def FlowsInv (toTarget toClient : List Frame) (s : Session) : Prop :=
  FlowInv toTarget s.client s.target s.spawned ∧
  FlowInv toClient s.target s.client (handlerLoop s.handler) ∧
  (handlerLoop s.handler = none → s.spawned = none)

/-- A failed call of the handler thread's own forwarding loop. -/
def Event.isHandlerFailure : Event → Bool
  | .proxy .handler e => e.failed
  | _ => false

/-- The handler thread's own forwarding loop has made a call that failed. -/
def handlerLoopFailed (tr : List Event) : Prop :=
  ∃ ev ∈ tr, ev.isHandlerFailure = true

/-- What holds in every state of a run in which `Upgrade` and `Dial` succeed:
the stack of deferred closes and the two `closed` flags, by the position of the
handler. Before and inside the handler's loop both connections are open and
both closes are pending; on the way out the target is closed first. -/
def SessionInv (s : Session) : Prop :=
  s.upgradeErr = none ∧ s.dialErr = none ∧
  match s.handler with
  | .upgrade => s.defers = [] ∧ s.client.closed = false ∧ s.target.closed = false
  | .dial => s.defers = [.client] ∧ s.client.closed = false ∧ s.target.closed = false
  | .spawn => s.defers = [.target, .client] ∧ s.client.closed = false ∧ s.target.closed = false
  | .forward pc =>
    s.defers = [.target, .client] ∧ s.client.closed = false ∧ s.target.closed = false ∧
      (pc = .done → handlerLoopFailed s.trace)
  | .unwind =>
    handlerLoopFailed s.trace ∧ Event.logPrintln ["Client disconnected"] ∈ s.trace ∧
      ((s.defers = [.target, .client] ∧ s.client.closed = false ∧ s.target.closed = false) ∨
       (s.defers = [.client] ∧ s.client.closed = false ∧ s.target.closed = true ∧
          Event.close .target ∈ s.trace) ∨
       (s.defers = [] ∧ s.client.closed = true ∧ s.target.closed = true ∧
          Event.close .target ∈ s.trace ∧ Event.close .client ∈ s.trace))
  | .returned =>
    handlerLoopFailed s.trace ∧ Event.logPrintln ["Client disconnected"] ∈ s.trace ∧
      s.client.closed = true ∧ s.target.closed = true ∧
      Event.close .target ∈ s.trace ∧ Event.close .client ∈ s.trace

/-! ## Startup: what `main` does with the environment -/

theorem usageError_of_missing (getenv : String → String)
    (h : getenv "TARGET_URL" = "" ∨ getenv "TARGET_PORT" = "" ∨ getenv "SERVER_PORT" = "") :
    usageError getenv = true := by
  rcases h with h | h | h <;> simp [usageError, h]

/-- The fourth disjunct of line 83 can never hold: it asks for `useTLS` and
for one of the two paths to be empty, and `useTLS` says that neither is. -/
theorem usageError_iff (getenv : String → String) :
    usageError getenv = true ↔
      (getenv "TARGET_URL" = "" ∨ getenv "TARGET_PORT" = "" ∨ getenv "SERVER_PORT" = "") := by
  constructor
  · intro h
    simp only [usageError, mainUseTLS, Bool.or_eq_true, Bool.and_eq_true, beq_iff_eq,
      bne_iff_ne, ne_eq] at h
    rcases h with ((h | h) | h) | ⟨⟨hk, hc⟩, h | h⟩
    · exact Or.inl h
    · exact Or.inr (Or.inl h)
    · exact Or.inr (Or.inr h)
    · exact absurd h hk
    · exact absurd h hc
  · exact usageError_of_missing getenv

theorem mainUseTLS_iff (getenv : String → String) :
    mainUseTLS getenv = true ↔
      (getenv "PRIVATE_KEY_PATH" ≠ "" ∧ getenv "CERTIFICATE_PATH" ≠ "") := by
  simp [mainUseTLS]

/-- With the flag off, `main` registers the handler and binds the plain listener. -/
theorem main_plain (getenv : String → String)
    (loadKeyPair : String → String → Except String Certificate) (listenErr : Option String)
    (hok : usageError getenv = false) (htls : mainUseTLS getenv = false) :
    main getenv loadKeyPair listenErr =
      .handleFunc "/" (mainServer getenv) ::
      .logPrintln ["WebSocket proxy server (WS) listening on port", getenv "SERVER_PORT"] ::
      .listenAndServe (":" ++ getenv "SERVER_PORT") ::
      (match listenErr with
       | none => []
       | some e => [.logFatal [e]]) := by
  simp [main, hok, mainServer, htls]

/-- With the flag on and a key pair that loads, `main` binds the TLS listener
with that key pair. -/
theorem main_tls (getenv : String → String)
    (loadKeyPair : String → String → Except String Certificate) (listenErr : Option String)
    (cert : Certificate)
    (hok : usageError getenv = false) (htls : mainUseTLS getenv = true)
    (hload : loadKeyPair (getenv "CERTIFICATE_PATH") (getenv "PRIVATE_KEY_PATH") = .ok cert) :
    main getenv loadKeyPair listenErr =
      .handleFunc "/" (mainServer getenv) ::
      .loadX509KeyPair (getenv "CERTIFICATE_PATH") (getenv "PRIVATE_KEY_PATH") ::
      .logPrintln ["WebSocket proxy server (WSS) listening on port", getenv "SERVER_PORT"] ::
      .listenAndServeTLS (":" ++ getenv "SERVER_PORT") cert ::
      (match listenErr with
       | none => []
       | some e => [.logFatal [e]]) := by
  simp [main, hok, mainServer, htls, hload]

/-- With the flag on and a key pair that does not load, `main` dies before
binding any listener. -/
theorem main_tls_load_failure (getenv : String → String)
    (loadKeyPair : String → String → Except String Certificate) (listenErr : Option String)
    (e : String)
    (hok : usageError getenv = false) (htls : mainUseTLS getenv = true)
    (hload : loadKeyPair (getenv "CERTIFICATE_PATH") (getenv "PRIVATE_KEY_PATH") = .error e) :
    main getenv loadKeyPair listenErr =
      [.handleFunc "/" (mainServer getenv),
       .loadX509KeyPair (getenv "CERTIFICATE_PATH") (getenv "PRIVATE_KEY_PATH"),
       .logFatal ["Failed to load certificates:", e]] := by
  simp [main, hok, mainServer, htls, hload]

/-! ## The outbound URL -/

/-- What line 37 builds: the format string contributes the single letter `w`
and `getWSSTag` at most one `s`. -/
theorem dialURL_eq (ws : WebSocketServer) :
    dialURL ws =
      (if ws.useTLS then "ws://" else "w://") ++ ws.targetURL ++ ":" ++ ws.targetPort ++ "/" := by
  unfold dialURL getWSSTag
  cases ws.useTLS
  · have h : "w" ++ "" ++ "://" = "w://" := by decide
    simp only [Bool.false_eq_true, if_false, h]
  · have h : "w" ++ "s" ++ "://" = "ws://" := by decide
    simp only [if_true, h]

/-- C2, at its own witness: for host `echo.example`, port `80` and no TLS the
URL built at line 37 and handed to `Dial` at line 38 is `w://echo.example:80/`,
not `ws://echo.example:80/`; with TLS it is `ws://echo.example:80/`, not
`wss://echo.example:80/`. `getWSSTag` does return `s` exactly when `useTLS`. -/
theorem dialURL_drops_scheme_letter :
    dialURL ⟨"echo.example", "80", "9002", false, "", ""⟩ = "w://echo.example:80/" ∧
    dialURL ⟨"echo.example", "80", "9002", false, "", ""⟩ ≠ "ws://echo.example:80/" ∧
    dialURL ⟨"echo.example", "80", "9002", true, "key.pem", "cert.pem"⟩ = "ws://echo.example:80/" ∧
    dialURL ⟨"echo.example", "80", "9002", true, "key.pem", "cert.pem"⟩ ≠ "wss://echo.example:80/" ∧
    (∀ ws : WebSocketServer, getWSSTag ws = "s" ↔ ws.useTLS = true) ∧
    (exec (Session.init ⟨"echo.example", "80", "9002", false, "", ""⟩ none none
        (Conn.fresh [] (fun _ => true)) (Conn.fresh [] (fun _ => true)))
      [.handler, .handler]).map (fun s => s.trace) =
      some [.upgrade none, .logPrintln ["Client connected"],
            .dial "w://echo.example:80/" none, .logPrintln ["Connected to target server"]] := by
  refine ⟨by decide, by decide, by decide, by decide, ?_, by decide⟩
  intro ws
  unfold getWSSTag
  cases ws.useTLS <;> decide

/-- C3, what the code does instead: when the three required variables are set
and at most one of the two TLS paths is, `main` prints no usage message and
does not exit; it registers the handler and binds the plain listener. -/
theorem main_partial_tls_binds_plain_listener (getenv : String → String)
    (loadKeyPair : String → String → Except String Certificate) (listenErr : Option String)
    (hurl : getenv "TARGET_URL" ≠ "") (hport : getenv "TARGET_PORT" ≠ "")
    (hsrv : getenv "SERVER_PORT" ≠ "")
    (hone : (getenv "PRIVATE_KEY_PATH" ≠ "" ∧ getenv "CERTIFICATE_PATH" = "") ∨
            (getenv "PRIVATE_KEY_PATH" = "" ∧ getenv "CERTIFICATE_PATH" ≠ "")) :
    usageError getenv = false ∧
    Effect.stdoutPrintln usage ∉ main getenv loadKeyPair listenErr ∧
    Effect.osExit 1 ∉ main getenv loadKeyPair listenErr ∧
    main getenv loadKeyPair listenErr =
      .handleFunc "/" (mainServer getenv) ::
      .logPrintln ["WebSocket proxy server (WS) listening on port", getenv "SERVER_PORT"] ::
      .listenAndServe (":" ++ getenv "SERVER_PORT") ::
      (match listenErr with
       | none => []
       | some e => [.logFatal [e]]) := by
  have hok : usageError getenv = false := by
    cases h : usageError getenv with
    | false => rfl
    | true =>
      rcases (usageError_iff getenv).1 h with h1 | h1 | h1
      · exact absurd h1 hurl
      · exact absurd h1 hport
      · exact absurd h1 hsrv
  have htls : mainUseTLS getenv = false := by
    cases h : mainUseTLS getenv with
    | false => rfl
    | true =>
      have h2 := (mainUseTLS_iff getenv).1 h
      rcases hone with ⟨_, hc⟩ | ⟨hk, _⟩
      · exact absurd hc h2.2
      · exact absurd hk h2.1
  have hmain := main_plain getenv loadKeyPair listenErr hok htls
  refine ⟨hok, ?_, ?_, hmain⟩
  · rw [hmain]; cases listenErr <;> simp
  · rw [hmain]; cases listenErr <;> simp

theorem main_partial_tls_binds_plain_listener_witness :
    usageError (mkEnv "echo.example" "80" "9002" "key.pem" "") = false ∧
    Effect.stdoutPrintln usage ∉
      main (mkEnv "echo.example" "80" "9002" "key.pem" "") (fun _ _ => .error "no file") none ∧
    Effect.osExit 1 ∉
      main (mkEnv "echo.example" "80" "9002" "key.pem" "") (fun _ _ => .error "no file") none ∧
    main (mkEnv "echo.example" "80" "9002" "key.pem" "") (fun _ _ => .error "no file") none =
      [.handleFunc "/" (mainServer (mkEnv "echo.example" "80" "9002" "key.pem" "")),
       .logPrintln ["WebSocket proxy server (WS) listening on port", "9002"],
       .listenAndServe ":9002"] :=
  main_partial_tls_binds_plain_listener (mkEnv "echo.example" "80" "9002" "key.pem" "")
    (fun _ _ => .error "no file") none (by decide) (by decide) (by decide)
    (Or.inl ⟨by decide, by decide⟩)

/-- C4, at a concrete input: with both TLS paths set the stored flag is true
and `main` binds the TLS listener with the loaded key pair, and the handler
built from that configuration dials `ws://echo.example:443/`, a plain-scheme
URL, not `wss://echo.example:443/`; with neither set it dials
`w://echo.example:443/`. -/
theorem tls_flag_outbound_scheme_not_wss :
    usageError (mkEnv "echo.example" "443" "9002" "key.pem" "cert.pem") = false ∧
    (mainServer (mkEnv "echo.example" "443" "9002" "key.pem" "cert.pem")).useTLS = true ∧
    main (mkEnv "echo.example" "443" "9002" "key.pem" "cert.pem")
        (fun _ _ => .ok ⟨"pair"⟩) none =
      [.handleFunc "/" (mainServer (mkEnv "echo.example" "443" "9002" "key.pem" "cert.pem")),
       .loadX509KeyPair "cert.pem" "key.pem",
       .logPrintln ["WebSocket proxy server (WSS) listening on port", "9002"],
       .listenAndServeTLS ":9002" ⟨"pair"⟩] ∧
    dialURL (mainServer (mkEnv "echo.example" "443" "9002" "key.pem" "cert.pem")) =
      "ws://echo.example:443/" ∧
    dialURL (mainServer (mkEnv "echo.example" "443" "9002" "key.pem" "cert.pem")) ≠
      "wss://echo.example:443/" ∧
    dialURL (mainServer (mkEnv "echo.example" "443" "9002" "" "")) = "w://echo.example:443/" := by
  refine ⟨by decide, by decide, by decide, by decide, by decide, by decide⟩

/-- The parts of the TLS rule that hold on the code: once validation passes,
the stored flag is true exactly when both paths are non-empty, the plain
listener is bound exactly when the flag is off, and a TLS listener is bound
only when the flag is on (and is bound then whenever the key pair loads). -/
theorem main_listener_by_flag (getenv : String → String)
    (loadKeyPair : String → String → Except String Certificate) (listenErr : Option String)
    (hok : usageError getenv = false) :
    ((mainServer getenv).useTLS = true ↔
      (getenv "PRIVATE_KEY_PATH" ≠ "" ∧ getenv "CERTIFICATE_PATH" ≠ "")) ∧
    (Effect.listenAndServe (":" ++ getenv "SERVER_PORT") ∈ main getenv loadKeyPair listenErr ↔
      (mainServer getenv).useTLS = false) ∧
    (∀ addr cert, Effect.listenAndServeTLS addr cert ∈ main getenv loadKeyPair listenErr →
      (mainServer getenv).useTLS = true ∧ addr = ":" ++ getenv "SERVER_PORT" ∧
      loadKeyPair (getenv "CERTIFICATE_PATH") (getenv "PRIVATE_KEY_PATH") = .ok cert) ∧
    (∀ cert, (mainServer getenv).useTLS = true →
      loadKeyPair (getenv "CERTIFICATE_PATH") (getenv "PRIVATE_KEY_PATH") = .ok cert →
      Effect.listenAndServeTLS (":" ++ getenv "SERVER_PORT") cert ∈
        main getenv loadKeyPair listenErr) := by
  refine ⟨mainUseTLS_iff getenv, ?_, ?_, ?_⟩
  · cases htls : mainUseTLS getenv with
    | false =>
      rw [main_plain getenv loadKeyPair listenErr hok htls]
      simp [mainServer, htls]
    | true =>
      cases hload : loadKeyPair (getenv "CERTIFICATE_PATH") (getenv "PRIVATE_KEY_PATH") with
      | error e =>
        rw [main_tls_load_failure getenv loadKeyPair listenErr e hok htls hload]
        simp [mainServer, htls]
      | ok cert =>
        rw [main_tls getenv loadKeyPair listenErr cert hok htls hload]
        cases listenErr <;> simp [mainServer, htls]
  · intro addr cert hmem
    cases htls : mainUseTLS getenv with
    | false =>
      rw [main_plain getenv loadKeyPair listenErr hok htls] at hmem
      cases listenErr <;> simp at hmem
    | true =>
      cases hload : loadKeyPair (getenv "CERTIFICATE_PATH") (getenv "PRIVATE_KEY_PATH") with
      | error e =>
        rw [main_tls_load_failure getenv loadKeyPair listenErr e hok htls hload] at hmem
        simp at hmem
      | ok cert1 =>
        rw [main_tls getenv loadKeyPair listenErr cert1 hok htls hload] at hmem
        cases listenErr <;> simp at hmem <;> simp [mainServer, htls, hmem]
  · intro cert htls hload
    have htls1 : mainUseTLS getenv = true := htls
    rw [main_tls getenv loadKeyPair listenErr cert hok htls1 hload]
    simp

/-- C5: when the target host, the target port or the listen port is empty,
`main` prints the usage line on standard output and exits with code 1, and
does nothing else: it registers no handler, loads no key pair and binds no
listener, whatever the two TLS paths are. -/
theorem main_missing_required_exits_with_usage (getenv : String → String)
    (loadKeyPair : String → String → Except String Certificate) (listenErr : Option String)
    (h : getenv "TARGET_URL" = "" ∨ getenv "TARGET_PORT" = "" ∨ getenv "SERVER_PORT" = "") :
    main getenv loadKeyPair listenErr = [.stdoutPrintln usage, .osExit 1] ∧
    (∀ e ∈ main getenv loadKeyPair listenErr, e.bindsListener = false) ∧
    (∀ ws, Effect.handleFunc "/" ws ∉ main getenv loadKeyPair listenErr) ∧
    (∀ c k, Effect.loadX509KeyPair c k ∉ main getenv loadKeyPair listenErr) := by
  have hmain : main getenv loadKeyPair listenErr = [.stdoutPrintln usage, .osExit 1] := by
    simp [main, usageError_of_missing getenv h]
  refine ⟨hmain, ?_, ?_, ?_⟩
  · intro e he
    rw [hmain] at he
    simp only [List.mem_cons, List.mem_singleton, List.not_mem_nil, or_false] at he
    rcases he with rfl | rfl <;> rfl
  · intro ws; rw [hmain]; simp
  · intro c k; rw [hmain]; simp

theorem main_missing_required_exits_with_usage_witness :
    main (mkEnv "echo.example" "" "9002" "key.pem" "cert.pem") (fun _ _ => .ok ⟨"pair"⟩) none =
      [.stdoutPrintln usage, .osExit 1] ∧
    (∀ e ∈ main (mkEnv "echo.example" "" "9002" "key.pem" "cert.pem")
        (fun _ _ => .ok ⟨"pair"⟩) none, e.bindsListener = false) ∧
    (∀ ws, Effect.handleFunc "/" ws ∉
      main (mkEnv "echo.example" "" "9002" "key.pem" "cert.pem") (fun _ _ => .ok ⟨"pair"⟩) none) ∧
    (∀ c k, Effect.loadX509KeyPair c k ∉
      main (mkEnv "echo.example" "" "9002" "key.pem" "cert.pem") (fun _ _ => .ok ⟨"pair"⟩) none) :=
  main_missing_required_exits_with_usage (mkEnv "echo.example" "" "9002" "key.pem" "cert.pem")
    (fun _ _ => .ok ⟨"pair"⟩) none (Or.inr (Or.inl (by decide)))

/-! ## The forwarding loop -/

theorem proxyRun_done (n : Nat) (src dst : Conn) :
    proxyRun n .done src dst = ⟨.done, src, dst, []⟩ := by
  cases n <;> simp [proxyRun, proxyStep]

theorem proxyRun_read (inbox : List (Option Frame)) :
    ∀ (n : Nat) (src dst : Conn), src.closed = false → src.inbox = inbox →
      2 * inbox.length + 1 ≤ n → proxyRun n .read src dst = proxyUnrolled inbox src dst := by
  induction inbox with
  | nil =>
    intro n src dst hc hi hn
    obtain ⟨m, rfl⟩ : ∃ m, n = m + 1 := ⟨n - 1, by omega⟩
    simp [proxyRun, proxyStep, ReadMessage, hc, hi, proxyUnrolled]
  | cons r rest ih =>
    intro n src dst hc hi hn
    obtain ⟨m, rfl⟩ : ∃ m, n = m + 2 := ⟨n - 2, by simp at hn; omega⟩
    cases r with
    | none =>
      simp [proxyRun, proxyStep, ReadMessage, hc, hi, proxyUnrolled]
    | some f =>
      have hm : 2 * rest.length + 1 ≤ m := by simp at hn; omega
      have ih1 := fun d => ih m ⟨rest, src.writeOk, src.nwrites, src.outbox, false⟩ d rfl rfl hm
      rcases hw : WriteMessage dst f with ⟨ok, dst1⟩
      cases ok with
      | true => simp [proxyRun, proxyStep, ReadMessage, hc, hi, proxyUnrolled, hw, ih1]
      | false =>
        simp [proxyRun, proxyStep, ReadMessage, hc, hi, proxyUnrolled, hw, proxyRun_done]

theorem proxyMessages_eq_unrolled (src dst : Conn) (hc : src.closed = false) :
    proxyMessages src dst = proxyUnrolled src.inbox src dst :=
  proxyRun_read src.inbox _ src dst hc rfl (by omega)

theorem writeMessage_eq (dst : Conn) (f : Frame) (ok : Bool) (dst1 : Conn)
    (h : WriteMessage dst f = (ok, dst1)) :
    ok = (!dst.closed && dst.writeOk dst.nwrites) ∧ dst1.closed = dst.closed ∧
    dst1.writeOk = dst.writeOk ∧ dst1.nwrites = dst.nwrites + 1 ∧ dst1.inbox = dst.inbox ∧
    dst1.outbox = if ok then dst.outbox ++ [f] else dst.outbox := by
  simp only [WriteMessage, Prod.mk.injEq] at h
  obtain ⟨h1, h2⟩ := h
  subst h2
  subst h1
  exact ⟨rfl, rfl, rfl, rfl, rfl, rfl⟩

theorem unrolled_attempts_eq_read (inbox : List (Option Frame)) :
    ∀ src dst : Conn, writeAttempts (proxyUnrolled inbox src dst).events =
      framesRead (proxyUnrolled inbox src dst).events := by
  induction inbox with
  | nil => intro src dst; rfl
  | cons r rest ih =>
    intro src dst
    cases r with
    | none => rfl
    | some f =>
      rcases hw : WriteMessage dst f with ⟨ok, dst1⟩
      cases ok with
      | true => simp [proxyUnrolled, hw, writeAttempts, framesRead, ih]
      | false => simp [proxyUnrolled, hw, writeAttempts, framesRead]

theorem unrolled_read_prefix (inbox : List (Option Frame)) :
    ∀ src dst : Conn, framesRead (proxyUnrolled inbox src dst).events <+: leadingFrames inbox := by
  induction inbox with
  | nil => intro src dst; simp [proxyUnrolled, framesRead]
  | cons r rest ih =>
    intro src dst
    cases r with
    | none => simp [proxyUnrolled, framesRead, leadingFrames]
    | some f =>
      rcases hw : WriteMessage dst f with ⟨ok, dst1⟩
      cases ok with
      | true =>
        simp only [proxyUnrolled, hw, framesRead, leadingFrames]
        exact (List.prefix_cons_inj f).2 (ih _ _)
      | false =>
        simp only [proxyUnrolled, hw, framesRead, leadingFrames]
        exact (List.prefix_cons_inj f).2 List.nil_prefix

theorem unrolled_outcomes (inbox : List (Option Frame)) :
    ∀ src dst : Conn, writeOutcomes (proxyUnrolled inbox src dst).events =
      (List.range (writeAttempts (proxyUnrolled inbox src dst).events).length).map
        (fun k => !dst.closed && dst.writeOk (dst.nwrites + k)) := by
  induction inbox with
  | nil => intro src dst; simp [proxyUnrolled, writeOutcomes, writeAttempts]
  | cons r rest ih =>
    intro src dst
    cases r with
    | none => simp [proxyUnrolled, writeOutcomes, writeAttempts]
    | some f =>
      rcases hw : WriteMessage dst f with ⟨ok, dst1⟩
      obtain ⟨hok, hcl, hwo, hnw, -, -⟩ := writeMessage_eq dst f ok dst1 hw
      cases ok with
      | true =>
        simp only [proxyUnrolled, hw, writeOutcomes, writeAttempts, List.length_cons,
          List.range_succ_eq_map, List.map_cons, List.map_map, Nat.add_zero]
        rw [ih, hcl, hwo, hnw, ← hok]
        congr 1
        apply List.map_congr_left
        intro k _
        simp only [Function.comp, Nat.succ_eq_add_one]
        rw [Nat.add_assoc, Nat.add_comm 1 k]
      | false =>
        simp only [proxyUnrolled, hw, writeOutcomes, writeAttempts, List.length_cons,
          List.length_nil]
        rw [show List.range (0 + 1) = [0] from rfl]
        simp [← hok]

theorem unrolled_failure_last (inbox : List (Option Frame)) :
    ∀ (src dst : Conn) (pre : List LoopEvent) (e : LoopEvent) (post : List LoopEvent),
      (proxyUnrolled inbox src dst).events = pre ++ e :: post → e.failed = true → post = [] := by
  induction inbox with
  | nil =>
    intro src dst pre e post h _
    simp [proxyUnrolled] at h
  | cons r rest ih =>
    intro src dst pre e post h he
    cases r with
    | none =>
      simp only [proxyUnrolled] at h
      rcases pre with _ | ⟨p, pre⟩
      · simp at h; exact h.2
      · simp at h
    | some f =>
      rcases hw : WriteMessage dst f with ⟨ok, dst1⟩
      cases ok with
      | true =>
        simp only [proxyUnrolled, hw] at h
        rcases pre with _ | ⟨p, _ | ⟨q, pre⟩⟩
        · simp at h; rw [← h.1] at he; simp [LoopEvent.failed] at he
        · simp at h; rw [← h.2.1] at he; simp [LoopEvent.failed] at he
        · simp only [List.cons_append, List.cons.injEq] at h
          exact ih _ _ pre e post h.2.2 he
      | false =>
        simp only [proxyUnrolled, hw] at h
        rcases pre with _ | ⟨p, _ | ⟨q, pre⟩⟩
        · simp at h; rw [← h.1] at he; simp [LoopEvent.failed] at he
        · simp at h; exact h.2.2
        · simp at h

theorem unrolled_all_written (inbox : List (Option Frame)) :
    ∀ src dst : Conn, (∀ f, LoopEvent.write f false ∉ (proxyUnrolled inbox src dst).events) →
      writeAttempts (proxyUnrolled inbox src dst).events = leadingFrames inbox := by
  induction inbox with
  | nil => intro src dst _; rfl
  | cons r rest ih =>
    intro src dst h
    cases r with
    | none => rfl
    | some f =>
      rcases hw : WriteMessage dst f with ⟨ok, dst1⟩
      cases ok with
      | true =>
        simp only [proxyUnrolled, hw] at h
        simp only [proxyUnrolled, hw, writeAttempts, leadingFrames]
        rw [ih _ _ (fun g hg => h g (by simp [hg]))]
      | false =>
        simp only [proxyUnrolled, hw] at h
        exact absurd (by simp) (h f)

theorem unrolled_done_iff (inbox : List (Option Frame)) :
    ∀ src dst : Conn, (proxyUnrolled inbox src dst).pc = .done ↔
      ∃ e ∈ (proxyUnrolled inbox src dst).events, e.failed = true := by
  induction inbox with
  | nil => intro src dst; simp [proxyUnrolled]
  | cons r rest ih =>
    intro src dst
    cases r with
    | none => simp [proxyUnrolled, LoopEvent.failed]
    | some f =>
      rcases hw : WriteMessage dst f with ⟨ok, dst1⟩
      cases ok with
      | true => simp [proxyUnrolled, hw, LoopEvent.failed, ih]
      | false => simp [proxyUnrolled, hw, LoopEvent.failed]

theorem unrolled_final (inbox : List (Option Frame)) :
    ∀ src dst : Conn, src.inbox = inbox →
      (proxyUnrolled inbox src dst).src.closed = src.closed ∧
      ((proxyUnrolled inbox src dst).pc = .done ∨
        ((proxyUnrolled inbox src dst).pc = .read ∧ (proxyUnrolled inbox src dst).src.inbox = [])) := by
  induction inbox with
  | nil => intro src dst hi; simp [proxyUnrolled, hi]
  | cons r rest ih =>
    intro src dst hi
    cases r with
    | none => simp [proxyUnrolled]
    | some f =>
      rcases hw : WriteMessage dst f with ⟨ok, dst1⟩
      cases ok with
      | true =>
        simp only [proxyUnrolled, hw]
        exact ih { src with inbox := rest } dst1 rfl
      | false => simp [proxyUnrolled, hw]

theorem unrolled_terminates (inbox : List (Option Frame)) :
    ∀ src dst : Conn, none ∈ inbox → (proxyUnrolled inbox src dst).pc = .done := by
  induction inbox with
  | nil => intro src dst h; simp at h
  | cons r rest ih =>
    intro src dst h
    cases r with
    | none => rfl
    | some f =>
      rcases hw : WriteMessage dst f with ⟨ok, dst1⟩
      cases ok with
      | true =>
        simp only [proxyUnrolled, hw]
        exact ih _ _ (by simpa using h)
      | false => simp [proxyUnrolled, hw]

theorem unrolled_outbox (inbox : List (Option Frame)) :
    ∀ src dst : Conn, (proxyUnrolled inbox src dst).dst.outbox =
      dst.outbox ++ framesWritten (proxyUnrolled inbox src dst).events := by
  induction inbox with
  | nil => intro src dst; simp [proxyUnrolled, framesWritten]
  | cons r rest ih =>
    intro src dst
    cases r with
    | none => simp [proxyUnrolled, framesWritten]
    | some f =>
      rcases hw : WriteMessage dst f with ⟨ok, dst1⟩
      obtain ⟨-, -, -, -, -, hout⟩ := writeMessage_eq dst f ok dst1 hw
      cases ok with
      | true => simp [proxyUnrolled, hw, framesWritten, ih, hout]
      | false => simp [proxyUnrolled, hw, framesWritten, hout]

theorem unrolled_all_ok (inbox : List (Option Frame)) :
    ∀ src dst : Conn, dst.closed = false → (∀ k, dst.writeOk k = true) →
      framesWritten (proxyUnrolled inbox src dst).events = leadingFrames inbox ∧
      (∀ f, LoopEvent.write f false ∉ (proxyUnrolled inbox src dst).events) := by
  induction inbox with
  | nil => intro src dst _ _; simp [proxyUnrolled, framesWritten, leadingFrames]
  | cons r rest ih =>
    intro src dst hc hk
    cases r with
    | none => simp [proxyUnrolled, framesWritten, leadingFrames]
    | some f =>
      rcases hw : WriteMessage dst f with ⟨ok, dst1⟩
      obtain ⟨hok, hcl, hwo, -, -, -⟩ := writeMessage_eq dst f ok dst1 hw
      rw [hc, hk] at hok
      subst hok
      have ih1 := ih { src with inbox := rest } dst1 (hcl.trans hc) (fun k => by rw [hwo]; exact hk k)
      simp only [Bool.not_false, Bool.and_self] at hw
      simp only [Bool.not_false, Bool.and_self, proxyUnrolled, hw, framesWritten, leadingFrames,
        ih1.1, List.mem_cons, not_or, true_and]
      intro g
      exact ⟨by simp, by simp, ih1.2 g⟩

theorem leadingFrames_map_some (frames : List Frame) (tail : List (Option Frame))
    (htail : tail = [] ∨ ∃ rest, tail = none :: rest) :
    leadingFrames (frames.map some ++ tail) = frames := by
  induction frames with
  | nil =>
    rcases htail with rfl | ⟨rest, rfl⟩ <;> rfl
  | cons f fs ih => simp [leadingFrames, ih]

/-- The fuel of `proxyMessages` suffices: where it stops, the loop cannot make
another call. -/
theorem proxyMessages_quiescent (src dst : Conn) (hsrc : src.closed = false) :
    proxyStep (proxyMessages src dst).pc (proxyMessages src dst).src
      (proxyMessages src dst).dst = none := by
  rw [proxyMessages_eq_unrolled src dst hsrc]
  obtain ⟨hcl, hpc | ⟨hpc, hin⟩⟩ := unrolled_final src.inbox src dst rfl
  · rw [hpc]; rfl
  · rw [hpc]
    simp [proxyStep, ReadMessage, hcl, hsrc, hin]

/-- C1 (pass-through fidelity): when the open source connection delivers the
frames `frames` and then either nothing more or a read error, and every write
on the open destination succeeds, `proxyMessages` reads exactly `frames`, hands
exactly `frames` to `WriteMessage`, writes exactly `frames` successfully, and
the destination has received exactly `frames` on top of what it had: the same
frames (type tag and payload) in the same order, whatever their size. Both
directions run this one function, with the two connections swapped. -/
theorem proxyMessages_pass_through (src dst : Conn) (frames : List Frame)
    (tail : List (Option Frame))
    (hsrc : src.closed = false) (hdst : dst.closed = false)
    (hin : src.inbox = frames.map some ++ tail)
    (htail : tail = [] ∨ ∃ rest, tail = none :: rest)
    (hw : ∀ k, dst.writeOk k = true) :
    framesRead (proxyMessages src dst).events = frames ∧
    writeAttempts (proxyMessages src dst).events = frames ∧
    framesWritten (proxyMessages src dst).events = frames ∧
    (proxyMessages src dst).dst.outbox = dst.outbox ++ frames ∧
    (∀ e ∈ (proxyMessages src dst).events, e ≠ .read none → e.failed = false) := by
  have hlead : leadingFrames src.inbox = frames := by
    rw [hin]; exact leadingFrames_map_some frames tail htail
  rw [proxyMessages_eq_unrolled src dst hsrc]
  obtain ⟨hwr, hnf⟩ := unrolled_all_ok src.inbox src dst hdst hw
  have hatt := unrolled_all_written src.inbox src dst hnf
  refine ⟨?_, ?_, ?_, ?_, ?_⟩
  · rw [← unrolled_attempts_eq_read, hatt, hlead]
  · rw [hatt, hlead]
  · rw [hwr, hlead]
  · rw [unrolled_outbox, hwr, hlead]
  · intro e he hne
    cases e with
    | read r =>
      cases r with
      | none => exact absurd rfl hne
      | some f => rfl
    | write f ok =>
      cases ok with
      | true => rfl
      | false => exact absurd he (hnf f)

theorem proxyMessages_pass_through_witness :
    (Conn.fresh [some megabyteFrame, some pingFrame, none] alwaysOk).closed = false ∧
    framesRead (proxyMessages (Conn.fresh [some megabyteFrame, some pingFrame, none] alwaysOk)
      (Conn.fresh [] alwaysOk)).events = [megabyteFrame, pingFrame] ∧
    writeAttempts (proxyMessages (Conn.fresh [some megabyteFrame, some pingFrame, none] alwaysOk)
      (Conn.fresh [] alwaysOk)).events = [megabyteFrame, pingFrame] ∧
    framesWritten (proxyMessages (Conn.fresh [some megabyteFrame, some pingFrame, none] alwaysOk)
      (Conn.fresh [] alwaysOk)).events = [megabyteFrame, pingFrame] ∧
    (proxyMessages (Conn.fresh [some megabyteFrame, some pingFrame, none] alwaysOk)
      (Conn.fresh [] alwaysOk)).dst.outbox = [] ++ [megabyteFrame, pingFrame] ∧
    (∀ e ∈ (proxyMessages (Conn.fresh [some megabyteFrame, some pingFrame, none] alwaysOk)
      (Conn.fresh [] alwaysOk)).events, e ≠ .read none → e.failed = false) :=
  ⟨rfl, proxyMessages_pass_through (Conn.fresh [some megabyteFrame, some pingFrame, none] alwaysOk)
    (Conn.fresh [] alwaysOk) [megabyteFrame, pingFrame] [none] rfl rfl rfl
    (Or.inr ⟨[], rfl⟩) (fun _ => rfl)⟩

/-- C10 (first failure stops the loop): on an open source connection, for any
inbox and any write outcomes, `proxyMessages` hands to `WriteMessage` exactly
the frames it read, in order; these are an initial segment of the frames the
source delivers before its first read error, and all of them unless a write
failed; each write gets the outcome the network gives its position; a failed
call (read or write) is the last call the loop makes; the loop has returned
exactly when a call failed, and otherwise waits in `ReadMessage` on an
exhausted inbox; where it stops it can make no further call; and when the inbox
holds a read error, the loop returns. -/
theorem proxyMessages_stops_at_first_failure (src dst : Conn) (hsrc : src.closed = false) :
    writeAttempts (proxyMessages src dst).events = framesRead (proxyMessages src dst).events ∧
    framesRead (proxyMessages src dst).events <+: leadingFrames src.inbox ∧
    ((∀ f, LoopEvent.write f false ∉ (proxyMessages src dst).events) →
      writeAttempts (proxyMessages src dst).events = leadingFrames src.inbox) ∧
    writeOutcomes (proxyMessages src dst).events =
      (List.range (writeAttempts (proxyMessages src dst).events).length).map
        (fun k => !dst.closed && dst.writeOk (dst.nwrites + k)) ∧
    (∀ pre e post, (proxyMessages src dst).events = pre ++ e :: post →
      e.failed = true → post = []) ∧
    ((proxyMessages src dst).pc = .done ↔
      ∃ e ∈ (proxyMessages src dst).events, e.failed = true) ∧
    ((proxyMessages src dst).pc = .done ∨
      ((proxyMessages src dst).pc = .read ∧ (proxyMessages src dst).src.inbox = [])) ∧
    proxyStep (proxyMessages src dst).pc (proxyMessages src dst).src
      (proxyMessages src dst).dst = none ∧
    (none ∈ src.inbox → (proxyMessages src dst).pc = .done) := by
  have hq := proxyMessages_quiescent src dst hsrc
  rw [proxyMessages_eq_unrolled src dst hsrc] at hq ⊢
  exact ⟨unrolled_attempts_eq_read _ _ _, unrolled_read_prefix _ _ _,
    unrolled_all_written _ _ _, unrolled_outcomes _ _ _, unrolled_failure_last _ _ _,
    unrolled_done_iff _ _ _, (unrolled_final _ src dst rfl).2, hq, unrolled_terminates _ _ _⟩

theorem proxyMessages_stops_at_first_failure_witness :
    (Conn.fresh [some pingFrame, some pongFrame, some pingFrame, none] alwaysOk).closed = false ∧
    (proxyMessages (Conn.fresh [some pingFrame, some pongFrame, some pingFrame, none] alwaysOk)
      (Conn.fresh [] (okBefore 1))).events =
      [.read (some pingFrame), .write pingFrame true,
       .read (some pongFrame), .write pongFrame false] ∧
    (∀ pre e post,
      (proxyMessages (Conn.fresh [some pingFrame, some pongFrame, some pingFrame, none] alwaysOk)
        (Conn.fresh [] (okBefore 1))).events = pre ++ e :: post →
      e.failed = true → post = []) :=
  ⟨rfl, by decide,
    (proxyMessages_stops_at_first_failure
      (Conn.fresh [some pingFrame, some pongFrame, some pingFrame, none] alwaysOk)
      (Conn.fresh [] (okBefore 1)) rfl).2.2.2.2.1⟩

/-! ## The handler: failed upgrade and failed dial -/

/-- The three states a run with a failing `Upgrade` passes through. -/
theorem upgrade_failure_states (ws : WebSocketServer) (f : UpgradeFailure)
    (dialErr : Option String) (client target : Conn) (sched : List Thread) (s : Session)
    (h : exec (Session.init ws (some f) dialErr client target) sched = some s) :
    s = Session.init ws (some f) dialErr client target ∨
    s = { Session.init ws (some f) dialErr client target with
            handler := .unwind, trace := upgradeFailureTrace f.err,
            w := httpError (f.applyTo ResponseWriter.fresh) "Internal Server Error" 500 } ∨
    s = { Session.init ws (some f) dialErr client target with
            handler := .returned, trace := upgradeFailureTrace f.err,
            w := httpError (f.applyTo ResponseWriter.fresh) "Internal Server Error" 500 } := by
  rcases sched with _ | ⟨t1, _ | ⟨t2, _ | ⟨t3, rest⟩⟩⟩
  · simp only [exec, Option.some.injEq] at h
    exact Or.inl h.symm
  · cases t1 <;>
      simp only [exec, step, stepHandler, stepSpawned, Session.init, Option.some.injEq,
        reduceCtorEq] at h
    exact Or.inr (Or.inl h.symm)
  · cases t1 <;> cases t2 <;>
      simp only [exec, step, stepHandler, stepSpawned, Session.init, Option.some.injEq,
        reduceCtorEq] at h
    exact Or.inr (Or.inr h.symm)
  · cases t1 <;> cases t2 <;> cases t3 <;>
      simp only [exec, step, stepHandler, stepSpawned, Session.init, Option.some.injEq,
        reduceCtorEq] at h

/-- The status line is fixed by the first `WriteHeader`: after a reply with
`code`, a further `http.Error` leaves the status at `code` and only appends its
message to the body. -/
theorem httpError_after_reply (text msg : String) (code code1 : Nat) :
    (httpError (httpError ResponseWriter.fresh text code) msg code1).status = some code ∧
    (httpError (httpError ResponseWriter.fresh text code) msg code1).body =
      "" ++ text ++ "\n" ++ msg ++ "\n" := by
  simp [httpError, ResponseWriter.fresh]

/-- What holds of every run of `handleClient` in which `Upgrade` fails with
`f`: the calls made so far are an initial segment of the failed upgrade, the
log entry carrying the error, and the call `http.Error(w, _, 500)`; none of
them is a dial, a frame read or write, or the start of a forwarding loop; no
goroutine exists; both connections are untouched; the handler returns after
two steps; and at its return the status the client has received is the one
`Upgrade` itself replied with (none at all when `Upgrade` failed after
hijacking), whatever line 29 passes to `http.Error`. -/
theorem handleClient_upgrade_failure (ws : WebSocketServer) (f : UpgradeFailure)
    (dialErr : Option String) (client target : Conn) (sched : List Thread) (s : Session)
    (h : exec (Session.init ws (some f) dialErr client target) sched = some s) :
    s.trace <+: upgradeFailureTrace f.err ∧
    (∀ ev ∈ s.trace, ev.isDial = false ∧ ev.isProxy = false ∧ ev ≠ .goProxy) ∧
    s.spawned = none ∧ s.client = client ∧ s.target = target ∧
    (s.handler = .returned → s.trace = upgradeFailureTrace f.err ∧
      s.w.status = f.reply.map Prod.fst) ∧
    (exec (Session.init ws (some f) dialErr client target) [.handler, .handler]).map
      (fun s1 => (s1.handler, s1.trace)) = some (.returned, upgradeFailureTrace f.err) := by
  have hmem : ∀ ev ∈ upgradeFailureTrace f.err,
      ev.isDial = false ∧ ev.isProxy = false ∧ ev ≠ .goProxy := by
    intro ev hev
    simp only [upgradeFailureTrace, List.mem_cons, List.mem_singleton, List.not_mem_nil,
      or_false] at hev
    rcases hev with rfl | rfl | rfl <;> exact ⟨rfl, rfl, by simp⟩
  have hstatus : (httpError (f.applyTo ResponseWriter.fresh) "Internal Server Error" 500).status =
      f.reply.map Prod.fst := by
    obtain ⟨err, reply⟩ := f
    cases reply with
    | none => simp [UpgradeFailure.applyTo, httpError, ResponseWriter.fresh]
    | some p =>
      obtain ⟨code, text⟩ := p
      simp [UpgradeFailure.applyTo, httpError, ResponseWriter.fresh]
  rcases upgrade_failure_states ws f dialErr client target sched s h with rfl | rfl | rfl
  · refine ⟨List.nil_prefix, ?_, rfl, rfl, rfl, ?_, rfl⟩
    · intro ev hev; simp [Session.init] at hev
    · intro hr; simp [Session.init] at hr
  · exact ⟨List.prefix_refl _, hmem, rfl, rfl, rfl, fun hr => by simp at hr, rfl⟩
  · exact ⟨List.prefix_refl _, hmem, rfl, rfl, rfl, fun _ => ⟨rfl, hstatus⟩, rfl⟩

/-- C7, at a concrete request: a plain GET without the upgrade headers.
`Upgrade` replies 400 `Bad Request` and returns an error; the handler logs it
and calls `http.Error(w, "Internal Server Error", 500)` (line 29), makes no
dial, starts no loop, reads and writes no frame, and returns. But the status
the client receives is 400, the one `Upgrade` sent, not 500: the call of line
29 comes after the status line and only appends its message to the body. -/
theorem upgrade_failure_response_is_not_500 :
    ∃ s, exec (Session.init plainServer (some ⟨"bad handshake", some (400, "Bad Request")⟩) none
          (Conn.fresh [some pingFrame] alwaysOk) (Conn.fresh [some pongFrame] alwaysOk))
          [.handler, .handler] = some s ∧
      s.handler = .returned ∧
      s.trace = [.upgrade (some "bad handshake"),
        .logPrintln ["Failed to upgrade client connection:", "bad handshake"],
        .httpError "Internal Server Error" 500] ∧
      s.spawned = none ∧
      s.w.status = some 400 ∧ s.w.status ≠ some 500 ∧
      s.w.body = "Bad Request\nInternal Server Error\n" :=
  ⟨_, rfl, rfl, rfl, rfl, by decide, by decide, by decide⟩

/-- The five states a run with a successful `Upgrade` and a failing `Dial`
passes through. -/
theorem dial_failure_states (ws : WebSocketServer) (e : String)
    (client target : Conn) (sched : List Thread) (s : Session)
    (h : exec (Session.init ws none (some e) client target) sched = some s) :
    s = Session.init ws none (some e) client target ∨
    s = { Session.init ws none (some e) client target with
            handler := .dial, defers := [.client], trace := (dialFailureTrace ws e).take 2,
            w := { ResponseWriter.fresh with hijacked := true } } ∨
    s = { Session.init ws none (some e) client target with
            handler := .unwind, defers := [.client], trace := (dialFailureTrace ws e).take 4,
            w := { ResponseWriter.fresh with hijacked := true } } ∨
    s = { Session.init ws none (some e) client target with
            handler := .unwind, client := client.close, trace := dialFailureTrace ws e,
            w := { ResponseWriter.fresh with hijacked := true } } ∨
    s = { Session.init ws none (some e) client target with
            handler := .returned, client := client.close, trace := dialFailureTrace ws e,
            w := { ResponseWriter.fresh with hijacked := true } } := by
  rcases sched with _ | ⟨t1, _ | ⟨t2, _ | ⟨t3, _ | ⟨t4, _ | ⟨t5, rest⟩⟩⟩⟩⟩
  · simp only [exec, Option.some.injEq] at h
    exact Or.inl h.symm
  · cases t1 <;>
      simp only [exec, step, stepHandler, stepSpawned, Session.init, Option.some.injEq,
        reduceCtorEq] at h
    exact Or.inr (Or.inl h.symm)
  · cases t1 <;> cases t2 <;>
      simp only [exec, step, stepHandler, stepSpawned, Session.init, Option.some.injEq,
        reduceCtorEq] at h
    exact Or.inr (Or.inr (Or.inl h.symm))
  · cases t1 <;> cases t2 <;> cases t3 <;>
      simp only [exec, step, stepHandler, stepSpawned, Session.init, Session.closeConn,
        Option.some.injEq, reduceCtorEq] at h
    exact Or.inr (Or.inr (Or.inr (Or.inl h.symm)))
  · cases t1 <;> cases t2 <;> cases t3 <;> cases t4 <;>
      simp only [exec, step, stepHandler, stepSpawned, Session.init, Session.closeConn,
        Option.some.injEq, reduceCtorEq] at h
    exact Or.inr (Or.inr (Or.inr (Or.inr h.symm)))
  · cases t1 <;> cases t2 <;> cases t3 <;> cases t4 <;> cases t5 <;>
      simp only [exec, step, stepHandler, stepSpawned, Session.init, Session.closeConn,
        Option.some.injEq, reduceCtorEq] at h

/-- C6 (dial failure): in every run of `handleClient` in which `Upgrade`
succeeds and `Dial` fails with `e`, the calls made so far are an initial
segment of: the upgrade, its log entry, one `Dial` of the URL of line 37, the
log entry carrying `e` and that URL, and the close of the client connection;
at most one of them is a dial; none is a frame read or write or the start of a
forwarding loop; no goroutine exists; nothing was read from or written to
either connection; once the handler has returned the calls are exactly those
five and the client connection is closed; and the handler does return, after
four steps. -/
theorem handleClient_dial_failure (ws : WebSocketServer) (e : String)
    (client target : Conn) (sched : List Thread) (s : Session)
    (h : exec (Session.init ws none (some e) client target) sched = some s) :
    s.trace <+: dialFailureTrace ws e ∧
    (s.trace.filter Event.isDial).length ≤ 1 ∧
    (∀ url err, Event.dial url err ∈ s.trace → url = dialURL ws ∧ err = some e) ∧
    (∀ ev ∈ s.trace, ev.isProxy = false ∧ ev ≠ .goProxy) ∧
    s.spawned = none ∧ s.target = target ∧
    (s.client.inbox = client.inbox ∧ s.client.nwrites = client.nwrites ∧
      s.client.outbox = client.outbox) ∧
    (s.handler = .returned → s.trace = dialFailureTrace ws e ∧ s.client.closed = true ∧
      Event.logPrintln ["Failed to connect to target server:", e, dialURL ws] ∈ s.trace) ∧
    (exec (Session.init ws none (some e) client target)
        [.handler, .handler, .handler, .handler]).map
      (fun s1 => (s1.handler, s1.trace, s1.client.closed)) =
      some (.returned, dialFailureTrace ws e, true) := by
  have hfull : ∀ tr : List Event, tr <+: dialFailureTrace ws e →
      (tr.filter Event.isDial).length ≤ 1 ∧
      (∀ url err, Event.dial url err ∈ tr → url = dialURL ws ∧ err = some e) ∧
      (∀ ev ∈ tr, ev.isProxy = false ∧ ev ≠ .goProxy) := by
    intro tr htr
    have hsub : ∀ ev ∈ tr, ev ∈ dialFailureTrace ws e := fun ev hev => htr.subset hev
    refine ⟨?_, ?_, ?_⟩
    · have h1 := (htr.sublist.filter Event.isDial).length_le
      exact le_trans h1 (by simp [dialFailureTrace, List.filter, Event.isDial])
    · intro url err hev
      have := hsub _ hev
      simp only [dialFailureTrace, List.mem_cons, List.mem_singleton, List.not_mem_nil,
        or_false, reduceCtorEq, false_or, Event.dial.injEq] at this
      exact this
    · intro ev hev
      have := hsub _ hev
      simp only [dialFailureTrace, List.mem_cons, List.mem_singleton, List.not_mem_nil,
        or_false] at this
      rcases this with rfl | rfl | rfl | rfl | rfl <;> exact ⟨rfl, by simp⟩
  have hpre : s.trace <+: dialFailureTrace ws e := by
    rcases dial_failure_states ws e client target sched s h with rfl | rfl | rfl | rfl | rfl
    · exact List.nil_prefix
    · exact List.take_prefix _ _
    · exact List.take_prefix _ _
    · exact List.prefix_refl _
    · exact List.prefix_refl _
  obtain ⟨hd1, hd2, hd3⟩ := hfull s.trace hpre
  refine ⟨hpre, hd1, hd2, hd3, ?_⟩
  rcases dial_failure_states ws e client target sched s h with rfl | rfl | rfl | rfl | rfl
  · exact ⟨rfl, rfl, ⟨rfl, rfl, rfl⟩, fun hr => by simp [Session.init] at hr, rfl⟩
  · exact ⟨rfl, rfl, ⟨rfl, rfl, rfl⟩, fun hr => by simp at hr, rfl⟩
  · exact ⟨rfl, rfl, ⟨rfl, rfl, rfl⟩, fun hr => by simp at hr, rfl⟩
  · exact ⟨rfl, rfl, ⟨rfl, rfl, rfl⟩, fun hr => by simp at hr, rfl⟩
  · exact ⟨rfl, rfl, ⟨rfl, rfl, rfl⟩, fun _ => ⟨rfl, rfl, by simp [dialFailureTrace]⟩, rfl⟩

theorem handleClient_dial_failure_witness :
    ∃ s, exec (Session.init plainServer none (some "malformed ws or wss URL")
          (Conn.fresh [some pingFrame] alwaysOk) (Conn.fresh [some pongFrame] alwaysOk))
          [.handler, .handler, .handler, .handler] = some s ∧
      s.handler = .returned ∧
      (s.trace = dialFailureTrace plainServer "malformed ws or wss URL" ∧
        s.client.closed = true ∧
        Event.logPrintln ["Failed to connect to target server:", "malformed ws or wss URL",
          dialURL plainServer] ∈ s.trace) ∧
      (s.trace.filter Event.isDial).length ≤ 1 ∧
      (∀ ev ∈ s.trace, ev.isProxy = false ∧ ev ≠ .goProxy) :=
  ⟨_, rfl, rfl,
    (handleClient_dial_failure plainServer "malformed ws or wss URL"
      (Conn.fresh [some pingFrame] alwaysOk) (Conn.fresh [some pongFrame] alwaysOk)
      [.handler, .handler, .handler, .handler] _ rfl).2.2.2.2.2.2.2.1 rfl,
    (handleClient_dial_failure plainServer "malformed ws or wss URL"
      (Conn.fresh [some pingFrame] alwaysOk) (Conn.fresh [some pongFrame] alwaysOk)
      [.handler, .handler, .handler, .handler] _ rfl).2.1,
    (handleClient_dial_failure plainServer "malformed ws or wss URL"
      (Conn.fresh [some pingFrame] alwaysOk) (Conn.fresh [some pongFrame] alwaysOk)
      [.handler, .handler, .handler, .handler] _ rfl).2.2.2.1⟩

/-! ## The handler: an established session -/

/-- A call of the loop never changes a `closed` flag, and the loop reaches
`done` only through a failed call. -/
theorem proxyStep_closed (pc pc1 : LoopPC) (src dst src1 dst1 : Conn) (e : LoopEvent)
    (h : proxyStep pc src dst = some (pc1, src1, dst1, e)) :
    src1.closed = src.closed ∧ dst1.closed = dst.closed ∧ (pc1 = .done → e.failed = true) := by
  cases pc with
  | read =>
    simp only [proxyStep] at h
    cases hr : ReadMessage src with
    | none => rw [hr] at h; simp at h
    | some p =>
      obtain ⟨r, src2⟩ := p
      rw [hr] at h
      have hcl : src2.closed = src.closed := by
        unfold ReadMessage at hr
        split at hr
        · simp only [Option.some.injEq, Prod.mk.injEq] at hr; rw [← hr.2]
        · split at hr
          · simp at hr
          · simp only [Option.some.injEq, Prod.mk.injEq] at hr; rw [← hr.2]
      cases r with
      | none =>
        simp only [Option.some.injEq, Prod.mk.injEq] at h
        obtain ⟨-, h2, h3, h4⟩ := h
        subst h2 h3 h4
        exact ⟨hcl, rfl, fun _ => rfl⟩
      | some f =>
        simp only [Option.some.injEq, Prod.mk.injEq] at h
        obtain ⟨h1, h2, h3, -⟩ := h
        subst h1 h2 h3
        exact ⟨hcl, rfl, fun hd => by simp at hd⟩
  | write f =>
    simp only [proxyStep] at h
    rcases hw : WriteMessage dst f with ⟨ok, dst2⟩
    obtain ⟨-, hcl, -, -, -, -⟩ := writeMessage_eq dst f ok dst2 hw
    rw [hw] at h
    cases ok with
    | true =>
      simp only [Option.some.injEq, Prod.mk.injEq] at h
      obtain ⟨h1, h2, h3, -⟩ := h
      subst h1 h2 h3
      exact ⟨rfl, hcl, fun hd => by simp at hd⟩
    | false =>
      simp only [Option.some.injEq, Prod.mk.injEq] at h
      obtain ⟨-, h2, h3, h4⟩ := h
      subst h2 h3 h4
      exact ⟨rfl, hcl, fun _ => rfl⟩
  | done => simp [proxyStep] at h

theorem handlerLoopFailed_append (tr more : List Event) (h : handlerLoopFailed tr) :
    handlerLoopFailed (tr ++ more) := by
  obtain ⟨ev, hev, hf⟩ := h
  exact ⟨ev, List.mem_append_left _ hev, hf⟩

theorem sessionInv_init (ws : WebSocketServer) (client target : Conn)
    (hc : client.closed = false) (ht : target.closed = false) :
    SessionInv (Session.init ws none none client target) :=
  ⟨rfl, rfl, rfl, hc, ht⟩

theorem sessionInv_stepSpawned (s s1 : Session) (hinv : SessionInv s)
    (h : stepSpawned s = some s1) : SessionInv s1 := by
  obtain ⟨ws, ue, de, client, target, handler, spawned, defers, trace, rw⟩ := s
  simp only [stepSpawned] at h
  cases spawned with
  | none => simp at h
  | some pc =>
    simp only at h
    cases hps : proxyStep pc client target with
    | none => rw [hps] at h; simp at h
    | some p =>
      obtain ⟨pc1, client1, target1, e⟩ := p
      rw [hps] at h
      simp only [Option.some.injEq] at h
      subst h
      obtain ⟨hcc, htc, -⟩ := proxyStep_closed pc pc1 client target client1 target1 e hps
      obtain ⟨hu, hd, hrest⟩ := hinv
      refine ⟨hu, hd, ?_⟩
      cases handler with
      | upgrade => simpa [hcc, htc] using hrest
      | dial => simpa [hcc, htc] using hrest
      | spawn => simpa [hcc, htc] using hrest
      | forward hpc =>
        simp only [hcc, htc] at hrest ⊢
        exact ⟨hrest.1, hrest.2.1, hrest.2.2.1,
          fun hdone => handlerLoopFailed_append _ _ (hrest.2.2.2 hdone)⟩
      | unwind =>
        simp only [hcc, htc] at hrest ⊢
        obtain ⟨hf, hl, hcase⟩ := hrest
        refine ⟨handlerLoopFailed_append _ _ hf, List.mem_append_left _ hl, ?_⟩
        rcases hcase with h1 | ⟨h1, h2, h3, h4⟩ | ⟨h1, h2, h3, h4, h5⟩
        · exact Or.inl h1
        · exact Or.inr (Or.inl ⟨h1, h2, h3, List.mem_append_left _ h4⟩)
        · exact Or.inr (Or.inr ⟨h1, h2, h3, List.mem_append_left _ h4,
            List.mem_append_left _ h5⟩)
      | returned =>
        simp only [hcc, htc] at hrest ⊢
        obtain ⟨hf, hl, h2, h3, h4, h5⟩ := hrest
        exact ⟨handlerLoopFailed_append _ _ hf, List.mem_append_left _ hl, h2, h3,
          List.mem_append_left _ h4, List.mem_append_left _ h5⟩

theorem sessionInv_forward (s s1 : Session) (pc : LoopPC) (hpc : pc ≠ .done)
    (hh : s.handler = .forward pc) (hinv : SessionInv s)
    (h : stepHandler s = some s1) : SessionInv s1 := by
  obtain ⟨ws, ue, de, client, target, handler, spawned, defers, trace, rw⟩ := s
  simp only at hh
  subst hh
  obtain ⟨hu, hd, hdef, hcc, htc, -⟩ := hinv
  have hstep : stepHandler ⟨ws, ue, de, client, target, .forward pc, spawned, defers, trace, rw⟩ =
      match proxyStep pc target client with
      | none => none
      | some (pc1, target1, client1, e) =>
        some ⟨ws, ue, de, client1, target1, .forward pc1, spawned, defers,
          trace ++ [.proxy .handler e], rw⟩ := by
    cases pc with
    | read => rfl
    | write f => rfl
    | done => exact absurd rfl hpc
  rw [hstep] at h
  cases hps : proxyStep pc target client with
  | none => rw [hps] at h; simp at h
  | some p =>
    obtain ⟨pc1, target1, client1, e⟩ := p
    rw [hps] at h
    simp only [Option.some.injEq] at h
    subst h
    obtain ⟨htc1, hcc1, hfail⟩ := proxyStep_closed pc pc1 target client target1 client1 e hps
    refine ⟨hu, hd, hdef, hcc1.trans hcc, htc1.trans htc, ?_⟩
    intro hdone
    exact ⟨.proxy .handler e, by simp, hfail hdone⟩

theorem sessionInv_stepHandler (s s1 : Session) (hinv : SessionInv s)
    (h : stepHandler s = some s1) : SessionInv s1 := by
  cases hh : s.handler with
  | forward pc =>
    by_cases hpc : pc = .done
    · subst hpc
      obtain ⟨ws, ue, de, client, target, handler, spawned, defers, trace, rw⟩ := s
      simp only at hh
      subst hh
      simp only [stepHandler, Option.some.injEq] at h
      subst h
      obtain ⟨hu, hd, hdef, hcc, htc, hf⟩ := hinv
      exact ⟨hu, hd, handlerLoopFailed_append _ _ (hf rfl), by simp, Or.inl ⟨hdef, hcc, htc⟩⟩
    · exact sessionInv_forward s s1 pc hpc hh hinv h
  | upgrade =>
    obtain ⟨ws, ue, de, client, target, handler, spawned, defers, trace, rw⟩ := s
    simp only at hh
    subst hh
    obtain ⟨hu, hd, hdef, hcc, htc⟩ := hinv
    simp only at hu hd hdef hcc htc
    subst hu hdef
    simp only [stepHandler, Option.some.injEq] at h
    subst h
    exact ⟨rfl, hd, rfl, hcc, htc⟩
  | dial =>
    obtain ⟨ws, ue, de, client, target, handler, spawned, defers, trace, rw⟩ := s
    simp only at hh
    subst hh
    obtain ⟨hu, hd, hdef, hcc, htc⟩ := hinv
    simp only at hu hd hdef hcc htc
    subst hd hdef
    simp only [stepHandler, Option.some.injEq] at h
    subst h
    exact ⟨hu, rfl, rfl, hcc, htc⟩
  | spawn =>
    obtain ⟨ws, ue, de, client, target, handler, spawned, defers, trace, rw⟩ := s
    simp only at hh
    subst hh
    obtain ⟨hu, hd, hdef, hcc, htc⟩ := hinv
    simp only [stepHandler, Option.some.injEq] at h
    subst h
    exact ⟨hu, hd, hdef, hcc, htc, fun hdone => by simp at hdone⟩
  | unwind =>
    obtain ⟨ws, ue, de, client, target, handler, spawned, defers, trace, rw⟩ := s
    simp only at hh
    subst hh
    obtain ⟨hu, hd, hf, hl, hcase⟩ := hinv
    simp only at hu hd hf hl hcase
    rcases hcase with ⟨hdef, hcc, htc⟩ | ⟨hdef, hcc, htc, hct⟩ | ⟨hdef, hcc, htc, hct, hcl⟩
    · subst hdef
      simp only [stepHandler, Session.closeConn, Option.some.injEq] at h
      subst h
      exact ⟨hu, hd, handlerLoopFailed_append _ _ hf, List.mem_append_left _ hl,
        Or.inr (Or.inl ⟨rfl, hcc, rfl, by simp⟩)⟩
    · subst hdef
      simp only [stepHandler, Session.closeConn, Option.some.injEq] at h
      subst h
      exact ⟨hu, hd, handlerLoopFailed_append _ _ hf, List.mem_append_left _ hl,
        Or.inr (Or.inr ⟨rfl, rfl, htc, List.mem_append_left _ hct, by simp⟩)⟩
    · subst hdef
      simp only [stepHandler, Option.some.injEq] at h
      subst h
      exact ⟨hu, hd, hf, hl, hcc, htc, hct, hcl⟩
  | returned =>
    obtain ⟨ws, ue, de, client, target, handler, spawned, defers, trace, rw⟩ := s
    simp only at hh
    subst hh
    simp [stepHandler] at h

theorem sessionInv_exec (sched : List Thread) :
    ∀ s s1 : Session, SessionInv s → exec s sched = some s1 → SessionInv s1 := by
  induction sched with
  | nil =>
    intro s s1 hinv h
    simp only [exec, Option.some.injEq] at h
    exact h ▸ hinv
  | cons t ts ih =>
    intro s s1 hinv h
    simp only [exec] at h
    cases hst : step s t with
    | none => rw [hst] at h; simp at h
    | some s2 =>
      rw [hst] at h
      refine ih s2 s1 ?_ h
      cases t with
      | handler => exact sessionInv_stepHandler s s2 hinv hst
      | spawned => exact sessionInv_stepSpawned s s2 hinv hst

/-- C8 (release on return): in every run of `handleClient` in which `Upgrade`
and `Dial` succeed on two open connections, (1) once the handler has returned
both connections are closed, by the two deferred closes; (2) whenever either
connection is closed, the handler is already on its way out, its own
forwarding loop has ended on a failed read or write, and line 51 has logged
the end; (3) whenever the handler's loop has ended, four more handler steps
(the log entry, the two closes, the return) bring the handler to its return
with both connections closed. -/
theorem handleClient_releases_both_connections (ws : WebSocketServer) (client target : Conn)
    (hc : client.closed = false) (ht : target.closed = false)
    (sched : List Thread) (s : Session)
    (h : exec (Session.init ws none none client target) sched = some s) :
    (s.handler = .returned →
      s.client.closed = true ∧ s.target.closed = true ∧
      Event.close .target ∈ s.trace ∧ Event.close .client ∈ s.trace) ∧
    ((s.client.closed = true ∨ s.target.closed = true) →
      (s.handler = .unwind ∨ s.handler = .returned) ∧ handlerLoopFailed s.trace ∧
      Event.logPrintln ["Client disconnected"] ∈ s.trace) ∧
    (s.handler = .forward .done →
      ∃ s1, exec s [.handler, .handler, .handler, .handler] = some s1 ∧
        s1.handler = .returned ∧ s1.client.closed = true ∧ s1.target.closed = true) := by
  have hinv := sessionInv_exec sched _ s (sessionInv_init ws client target hc ht) h
  obtain ⟨ws1, ue, de, client1, target1, handler, spawned, defers, trace, rw⟩ := s
  obtain ⟨-, -, hrest⟩ := hinv
  cases handler with
  | upgrade =>
    simp only at hrest
    refine ⟨fun hr => by simp at hr, ?_, fun hr => by simp at hr⟩
    rintro (hcl | hcl) <;> simp_all
  | dial =>
    simp only at hrest
    refine ⟨fun hr => by simp at hr, ?_, fun hr => by simp at hr⟩
    rintro (hcl | hcl) <;> simp_all
  | spawn =>
    simp only at hrest
    refine ⟨fun hr => by simp at hr, ?_, fun hr => by simp at hr⟩
    rintro (hcl | hcl) <;> simp_all
  | forward pc =>
    simp only at hrest
    obtain ⟨hdef, hcc, htc, -⟩ := hrest
    subst hdef
    refine ⟨fun hr => by simp at hr, ?_, ?_⟩
    · rintro (hcl | hcl) <;> simp_all
    · intro hr
      simp only [HandlerPC.forward.injEq] at hr
      subst hr
      exact ⟨_, rfl, rfl, rfl, rfl⟩
  | unwind =>
    simp only at hrest
    obtain ⟨hf, hl, -⟩ := hrest
    exact ⟨fun hr => by simp at hr, fun _ => ⟨Or.inl rfl, hf, hl⟩, fun hr => by simp at hr⟩
  | returned =>
    simp only at hrest
    obtain ⟨hf, hl, h2, h3, h4, h5⟩ := hrest
    exact ⟨fun _ => ⟨h2, h3, h4, h5⟩, fun _ => ⟨Or.inr rfl, hf, hl⟩, fun hr => by simp at hr⟩

theorem handleClient_releases_both_connections_witness :
    ∃ s, exec (Session.init tlsServer none none (Conn.fresh [] alwaysOk)
          (Conn.fresh [none] alwaysOk))
          [.handler, .handler, .handler, .handler, .handler, .handler, .handler, .handler] =
          some s ∧
      s.handler = .returned ∧
      s.trace = [.upgrade none, .logPrintln ["Client connected"],
        .dial "ws://echo.example:443/" none, .logPrintln ["Connected to target server"],
        .goProxy, .proxy .handler (.read none), .logPrintln ["Client disconnected"],
        .close .target, .close .client] ∧
      (s.client.closed = true ∧ s.target.closed = true ∧
        Event.close .target ∈ s.trace ∧ Event.close .client ∈ s.trace) :=
  ⟨_, rfl, rfl, by decide,
    (handleClient_releases_both_connections tlsServer (Conn.fresh [] alwaysOk)
      (Conn.fresh [none] alwaysOk) rfl rfl
      [.handler, .handler, .handler, .handler, .handler, .handler, .handler, .handler]
      _ rfl).1 rfl⟩

/-- The handler also returns, with both connections closed, when its loop ends
on a failed write: the target delivers `ping` and the write to the client
fails. -/
theorem handleClient_returns_after_write_failure :
    (exec (Session.init tlsServer none none (Conn.fresh [] (okBefore 0))
        (Conn.fresh [some pingFrame] alwaysOk))
      [.handler, .handler, .handler, .handler, .handler, .handler, .handler, .handler,
       .handler]).map (fun s => (s.handler, s.client.closed, s.target.closed, s.trace)) =
      some (.returned, true, true,
        [.upgrade none, .logPrintln ["Client connected"],
         .dial "ws://echo.example:443/" none, .logPrintln ["Connected to target server"],
         .goProxy, .proxy .handler (.read (some pingFrame)),
         .proxy .handler (.write pingFrame false), .logPrintln ["Client disconnected"],
         .close .target, .close .client]) := by
  decide

/-- Closing both connections ends the goroutine: after the handler has
returned, a goroutine that waited in `ReadMessage` on the silent client gets a
read error and returns. -/
theorem handler_return_unblocks_goroutine :
    (exec (Session.init tlsServer none none (Conn.fresh [] alwaysOk)
        (Conn.fresh [none] alwaysOk))
      [.handler, .handler, .handler, .handler, .handler, .handler, .handler, .handler,
       .spawned]).map (fun s => (s.handler, s.spawned, s.trace.getLast?)) =
      some (.returned, some .done, some (.proxy .spawned (.read none))) := by
  decide

/-- C9, at a concrete session: the client connection fails (its first read
returns an error) while the target stays silent. After the goroutine has read
the error and returned, the handler is still inside its own loop, waiting in
`ReadMessage` on the target; neither connection has been closed; and no thread
can move, so the session stays in this state until the target itself sends or
fails. If the target then delivers a frame and the write to the client gets
through, that frame is forwarded after the goroutine's failure, still with
both connections open. -/
theorem goroutine_failure_leaves_target_open :
    (∃ s, exec (Session.init tlsServer none none (Conn.fresh [none] alwaysOk)
          (Conn.fresh [] alwaysOk)) [.handler, .handler, .handler, .spawned] = some s ∧
      s.spawned = some .done ∧
      s.trace.getLast? = some (.proxy .spawned (.read none)) ∧
      s.handler = .forward .read ∧
      s.client.closed = false ∧ s.target.closed = false ∧
      (∀ t, step s t = none)) ∧
    (∃ s, exec (Session.init tlsServer none none (Conn.fresh [none] alwaysOk)
          (Conn.fresh [some pongFrame] alwaysOk))
          [.handler, .handler, .handler, .spawned, .handler, .handler] = some s ∧
      s.spawned = some .done ∧
      s.trace = [.upgrade none, .logPrintln ["Client connected"],
        .dial "ws://echo.example:443/" none, .logPrintln ["Connected to target server"],
        .goProxy, .proxy .spawned (.read none),
        .proxy .handler (.read (some pongFrame)), .proxy .handler (.write pongFrame true)] ∧
      s.client.outbox = [pongFrame] ∧
      s.handler = .forward .read ∧
      s.client.closed = false ∧ s.target.closed = false ∧
      (∀ t, step s t = none)) := by
  refine ⟨⟨_, rfl, rfl, by decide, rfl, rfl, rfl, ?_⟩, ⟨_, rfl, rfl, by decide, by decide, rfl, rfl, rfl, ?_⟩⟩
  · intro t; cases t <;> rfl
  · intro t; cases t <;> rfl

/-- The state C9 excludes, in general: in an established session whose
goroutine has returned while the handler waits in `ReadMessage` on a target
that has nothing to deliver, both connections are still open and no thread can
move. -/
theorem goroutine_done_handler_waits (s : Session) (hinv : SessionInv s)
    (hh : s.handler = .forward .read) (hs : s.spawned = some .done)
    (hin : s.target.inbox = []) :
    s.client.closed = false ∧ s.target.closed = false ∧ ∀ t, step s t = none := by
  obtain ⟨ws, ue, de, client, target, handler, spawned, defers, trace, rw⟩ := s
  simp only at hh hs hin
  subst hh hs
  obtain ⟨-, -, -, hcc, htc, -⟩ := hinv
  simp only at hcc htc
  refine ⟨hcc, htc, ?_⟩
  intro t
  cases t with
  | handler => simp [step, stepHandler, proxyStep, ReadMessage, htc, hin]
  | spawned => simp [step, stepSpawned, proxyStep]

/-- The teardown the code does have: once both connections are closed (the
handler is on its way out), a goroutine that is still inside its loop is not
blocked, and its next call fails and ends it. -/
theorem closed_connections_stop_goroutine (s : Session) (pc : LoopPC)
    (hc : s.client.closed = true) (ht : s.target.closed = true)
    (hs : s.spawned = some pc) (hpc : pc ≠ .done) :
    ∃ s1 e, stepSpawned s = some s1 ∧ s1.spawned = some .done ∧ e.failed = true ∧
      s1.trace = s.trace ++ [.proxy .spawned e] := by
  obtain ⟨ws, ue, de, client, target, handler, spawned, defers, trace, rw⟩ := s
  simp only at hc ht hs
  subst hs
  cases pc with
  | read =>
    exact ⟨_, .read none, by simp [stepSpawned, proxyStep, ReadMessage, hc]; rfl, rfl, rfl, rfl⟩
  | write f =>
    refine ⟨⟨ws, ue, de, client, (WriteMessage target f).2, handler, some .done, defers,
      trace ++ [.proxy .spawned (.write f false)], rw⟩, .write f false, ?_, rfl, rfl, rfl⟩
    have hw : WriteMessage target f = (false, (WriteMessage target f).2) := by
      simp [WriteMessage, ht]
    simp only [stepSpawned, proxyStep]
    rw [hw]
  | done => exact absurd rfl hpc

/-! ## Both directions inside a session -/

/-- A call of the loop leaves the source's outbox and the destination's inbox
alone: those belong to the loop of the other direction. -/
theorem proxyStep_frame (pc pc1 : LoopPC) (src dst src1 dst1 : Conn) (e : LoopEvent)
    (h : proxyStep pc src dst = some (pc1, src1, dst1, e)) :
    src1.outbox = src.outbox ∧ dst1.inbox = dst.inbox := by
  cases pc with
  | read =>
    simp only [proxyStep] at h
    cases hr : ReadMessage src with
    | none => rw [hr] at h; simp at h
    | some p =>
      obtain ⟨r, src2⟩ := p
      rw [hr] at h
      have hout : src2.outbox = src.outbox := by
        unfold ReadMessage at hr
        split at hr
        · simp only [Option.some.injEq, Prod.mk.injEq] at hr; rw [← hr.2]
        · split at hr
          · simp at hr
          · simp only [Option.some.injEq, Prod.mk.injEq] at hr; rw [← hr.2]
      cases r with
      | none =>
        simp only [Option.some.injEq, Prod.mk.injEq] at h
        obtain ⟨-, h2, h3, -⟩ := h
        subst h2 h3
        exact ⟨hout, rfl⟩
      | some f =>
        simp only [Option.some.injEq, Prod.mk.injEq] at h
        obtain ⟨-, h2, h3, -⟩ := h
        subst h2 h3
        exact ⟨hout, rfl⟩
  | write f =>
    simp only [proxyStep] at h
    rcases hw : WriteMessage dst f with ⟨ok, dst2⟩
    obtain ⟨-, -, -, -, hin, -⟩ := writeMessage_eq dst f ok dst2 hw
    rw [hw] at h
    cases ok with
    | true =>
      simp only [Option.some.injEq, Prod.mk.injEq] at h
      obtain ⟨-, h2, h3, -⟩ := h
      subst h2 h3
      exact ⟨rfl, hin⟩
    | false =>
      simp only [Option.some.injEq, Prod.mk.injEq] at h
      obtain ⟨-, h2, h3, -⟩ := h
      subst h2 h3
      exact ⟨rfl, hin⟩
  | done => simp [proxyStep] at h

theorem flowInv_initial (expected : List Frame) (src dst : Conn) (pc : Option LoopPC)
    (h : FlowInv expected src dst pc) : dst.outbox <+: expected := by
  cases pc with
  | none => exact ⟨_, h⟩
  | some pc =>
    cases pc with
    | read => exact ⟨_, h⟩
    | write f => exact ⟨_, h⟩
    | done => exact h

/-- A call of a loop keeps the account of its own direction. -/
theorem flowInv_own_step (expected : List Frame) (pc pc1 : LoopPC) (src dst src1 dst1 : Conn)
    (e : LoopEvent) (hinv : FlowInv expected src dst (some pc))
    (h : proxyStep pc src dst = some (pc1, src1, dst1, e)) :
    FlowInv expected src1 dst1 (some pc1) := by
  cases pc with
  | read =>
    simp only [proxyStep, ReadMessage] at h
    simp only [FlowInv] at hinv
    by_cases hcl : src.closed = true
    · simp only [hcl, if_true, Option.some.injEq, Prod.mk.injEq] at h
      obtain ⟨h1, h2, h3, -⟩ := h
      subst h1 h2 h3
      exact ⟨_, hinv⟩
    · simp only [hcl, Bool.false_eq_true, if_false] at h
      cases hin : src.inbox with
      | nil => rw [hin] at h; simp at h
      | cons r rest =>
        rw [hin] at h hinv
        cases r with
        | none =>
          simp only [Option.some.injEq, Prod.mk.injEq] at h
          obtain ⟨h1, h2, h3, -⟩ := h
          subst h1 h2 h3
          exact ⟨_, hinv⟩
        | some f =>
          simp only [Option.some.injEq, Prod.mk.injEq] at h
          obtain ⟨h1, h2, h3, -⟩ := h
          subst h1 h2 h3
          exact hinv
  | write f =>
    simp only [proxyStep] at h
    simp only [FlowInv] at hinv
    rcases hw : WriteMessage dst f with ⟨ok, dst2⟩
    obtain ⟨-, -, -, -, -, hout⟩ := writeMessage_eq dst f ok dst2 hw
    rw [hw] at h
    cases ok with
    | true =>
      simp only [Option.some.injEq, Prod.mk.injEq] at h
      obtain ⟨h1, h2, h3, -⟩ := h
      subst h1 h2 h3
      simp only [FlowInv, hout, if_true, List.append_assoc, List.singleton_append]
      exact hinv
    | false =>
      simp only [Option.some.injEq, Prod.mk.injEq] at h
      obtain ⟨h1, h2, h3, -⟩ := h
      subst h1 h2 h3
      simp only [FlowInv, hout, Bool.false_eq_true, if_false]
      exact ⟨_, hinv⟩
  | done => simp [proxyStep] at h

/-- The account of a direction only looks at the source's inbox and the
destination's outbox. -/
theorem flowInv_congr (expected : List Frame) (src dst src1 dst1 : Conn) (pc : Option LoopPC)
    (hs : src1.inbox = src.inbox) (hd : dst1.outbox = dst.outbox)
    (h : FlowInv expected src dst pc) : FlowInv expected src1 dst1 pc := by
  cases pc with
  | none => simpa only [FlowInv, hs, hd] using h
  | some pc =>
    cases pc with
    | read => simpa only [FlowInv, hs, hd] using h
    | write f => simpa only [FlowInv, hs, hd] using h
    | done => simpa only [FlowInv, hs, hd] using h

theorem flowInv_done (expected : List Frame) (src dst : Conn) (pc : Option LoopPC)
    (h : FlowInv expected src dst pc) : FlowInv expected src dst (some .done) :=
  flowInv_initial expected src dst pc h

theorem flowsInv_stepSpawned (toTarget toClient : List Frame) (s s1 : Session)
    (hinv : FlowsInv toTarget toClient s) (h : stepSpawned s = some s1) :
    FlowsInv toTarget toClient s1 := by
  obtain ⟨ws, ue, de, client, target, handler, spawned, defers, trace, rw⟩ := s
  simp only [stepSpawned] at h
  cases spawned with
  | none => simp at h
  | some pc =>
    simp only at h
    cases hps : proxyStep pc client target with
    | none => rw [hps] at h; simp at h
    | some p =>
      obtain ⟨pc1, client1, target1, e⟩ := p
      rw [hps] at h
      simp only [Option.some.injEq] at h
      subst h
      obtain ⟨hout, hin⟩ := proxyStep_frame pc pc1 client target client1 target1 e hps
      refine ⟨flowInv_own_step toTarget pc pc1 client target client1 target1 e hinv.1 hps,
        flowInv_congr toClient target client target1 client1 _ hin hout hinv.2.1, ?_⟩
      intro hnone
      exact absurd (hinv.2.2 hnone) (by simp)

theorem flowsInv_stepHandler (toTarget toClient : List Frame) (s s1 : Session)
    (hinv : FlowsInv toTarget toClient s) (h : stepHandler s = some s1) :
    FlowsInv toTarget toClient s1 := by
  obtain ⟨ws, ue, de, client, target, handler, spawned, defers, trace, rw⟩ := s
  obtain ⟨h1, h2, h3⟩ := hinv
  simp only at h1 h2 h3
  cases handler with
  | upgrade =>
    cases ue with
    | none =>
      simp only [stepHandler, Option.some.injEq] at h
      subst h
      exact ⟨h1, h2, h3⟩
    | some err =>
      simp only [stepHandler, Option.some.injEq] at h
      subst h
      exact ⟨h1, flowInv_done _ _ _ _ h2, fun hn => by simp [handlerLoop] at hn⟩
  | dial =>
    cases de with
    | none =>
      simp only [stepHandler, Option.some.injEq] at h
      subst h
      exact ⟨h1, h2, h3⟩
    | some err =>
      simp only [stepHandler, Option.some.injEq] at h
      subst h
      exact ⟨h1, flowInv_done _ _ _ _ h2, fun hn => by simp [handlerLoop] at hn⟩
  | spawn =>
    simp only [stepHandler, Option.some.injEq] at h
    subst h
    have hsp : spawned = none := h3 rfl
    subst hsp
    exact ⟨h1, h2, fun hn => by simp [handlerLoop] at hn⟩
  | forward pc =>
    cases pc with
    | done =>
      simp only [stepHandler, Option.some.injEq] at h
      subst h
      exact ⟨h1, h2, fun hn => by simp [handlerLoop] at hn⟩
    | read =>
      simp only [stepHandler] at h
      cases hps : proxyStep .read target client with
      | none => rw [hps] at h; simp at h
      | some p =>
        obtain ⟨pc1, target1, client1, e⟩ := p
        rw [hps] at h
        simp only [Option.some.injEq] at h
        subst h
        obtain ⟨hout, hin⟩ := proxyStep_frame _ pc1 target client target1 client1 e hps
        exact ⟨flowInv_congr toTarget client target client1 target1 _ hin hout h1,
          flowInv_own_step toClient _ pc1 target client target1 client1 e h2 hps,
          fun hn => by simp [handlerLoop] at hn⟩
    | write f =>
      simp only [stepHandler] at h
      cases hps : proxyStep (.write f) target client with
      | none => rw [hps] at h; simp at h
      | some p =>
        obtain ⟨pc1, target1, client1, e⟩ := p
        rw [hps] at h
        simp only [Option.some.injEq] at h
        subst h
        obtain ⟨hout, hin⟩ := proxyStep_frame _ pc1 target client target1 client1 e hps
        exact ⟨flowInv_congr toTarget client target client1 target1 _ hin hout h1,
          flowInv_own_step toClient _ pc1 target client target1 client1 e h2 hps,
          fun hn => by simp [handlerLoop] at hn⟩
  | unwind =>
    cases defers with
    | nil =>
      simp only [stepHandler, Option.some.injEq] at h
      subst h
      exact ⟨h1, h2, fun hn => by simp [handlerLoop] at hn⟩
    | cons c rest =>
      simp only [stepHandler, Option.some.injEq] at h
      subst h
      cases c with
      | client =>
        exact ⟨flowInv_congr toTarget client target _ _ _ rfl rfl h1,
          flowInv_congr toClient target client _ _ _ rfl rfl h2,
          fun hn => by simp [handlerLoop, Session.closeConn] at hn⟩
      | target =>
        exact ⟨flowInv_congr toTarget client target _ _ _ rfl rfl h1,
          flowInv_congr toClient target client _ _ _ rfl rfl h2,
          fun hn => by simp [handlerLoop, Session.closeConn] at hn⟩
  | returned => simp [stepHandler] at h

theorem flowsInv_exec (toTarget toClient : List Frame) (sched : List Thread) :
    ∀ s s1 : Session, FlowsInv toTarget toClient s → exec s sched = some s1 →
      FlowsInv toTarget toClient s1 := by
  induction sched with
  | nil =>
    intro s s1 hinv h
    simp only [exec, Option.some.injEq] at h
    exact h ▸ hinv
  | cons t ts ih =>
    intro s s1 hinv h
    simp only [exec] at h
    cases hst : step s t with
    | none => rw [hst] at h; simp at h
    | some s2 =>
      rw [hst] at h
      refine ih s2 s1 ?_ h
      cases t with
      | handler => exact flowsInv_stepHandler toTarget toClient s s2 hinv hst
      | spawned => exact flowsInv_stepSpawned toTarget toClient s s2 hinv hst

/-- Both directions, under every interleaving: in every state of every run of
`handleClient`, what the target has received is an initial segment of what it
had followed by the frames the client delivers before its first read error,
and likewise for the client; while a direction's loop is live, nothing is
missing either: received, held and still-to-come frames make up that
sequence. -/
theorem session_forwards_in_order (ws : WebSocketServer)
    (upgradeErr : Option UpgradeFailure) (dialErr : Option String)
    (client target : Conn) (sched : List Thread) (s : Session)
    (h : exec (Session.init ws upgradeErr dialErr client target) sched = some s) :
    s.target.outbox <+: target.outbox ++ leadingFrames client.inbox ∧
    s.client.outbox <+: client.outbox ++ leadingFrames target.inbox ∧
    FlowsInv (target.outbox ++ leadingFrames client.inbox)
      (client.outbox ++ leadingFrames target.inbox) s := by
  have hinit : FlowsInv (target.outbox ++ leadingFrames client.inbox)
      (client.outbox ++ leadingFrames target.inbox)
      (Session.init ws upgradeErr dialErr client target) := ⟨rfl, rfl, fun _ => rfl⟩
  have hinv := flowsInv_exec _ _ sched _ s hinit h
  exact ⟨flowInv_initial _ _ _ _ hinv.1, flowInv_initial _ _ _ _ hinv.2.1, hinv⟩

end WssProxy
